import Mathlib

/-! OVMS v3: web server core, Smart EQ and Volt/Ampera vehicle modules, housekeeping ticker.

Shallow embedding of `components/ovms_webserver/src/ovms_webserver.h`,
`components/vehicle_smarteq/src/vehicle_smarteq.cpp`,
`components/vehicle_voltampera/src/vehicle_voltampera.cpp` and `main/ovms_housekeeping.cpp`.

* Pointers are natural-number addresses, `none` is `NULL`.
* The part of the C++ heap that `MgHandler` touches is an explicit state `MgHeap`.
* Constants (`XFER_CHUNK_SIZE`, `NUM_SESSIONS`, `SESSION_TTL`), record layouts and the
  inline member functions are taken from the web server header.
* Member functions that the header only declares are modelled from the design
  document; each such definition says so in its doc comment.
* A vehicle module is a record of its members, its function statics and the metrics it
  reads and writes; a method is a function from that record to the record afterwards.
  What another task or the hardware supplies during a call (the bus-awake metric inside
  `CommandWakeup`, the tick count, the clock) is an argument.
* Unsigned machine arithmetic is arithmetic on naturals modulo `2^32` or `2^64`.

Definitions come first, theorems after them.
-/

namespace OVMS

/-! ## Constants of the header -/

/-- The header's `#define SESSION_TTL 3600`. -/
def SESSION_TTL : Int := 3600

/-- The header's `#define SESSION_CHECK_INTERVAL 60`. -/
def SESSION_CHECK_INTERVAL : Int := 60

/-- The header's `#define NUM_SESSIONS 5`. -/
def NUM_SESSIONS : Nat := 5

/-- The header's `#define XFER_CHUNK_SIZE 1024`. -/
def XFER_CHUNK_SIZE : Nat := 1024

/-! ## MgHandler: attach to / detach from a connection through `user_data` -/

/-- Data members of `class MgHandler`: the connection pointer `m_nc` (`none` = `NULL`). -/
structure MgHandler where
  m_nc : Option Nat
deriving DecidableEq, Repr

/-- The heap as far as `MgHandler` reads and writes it: the `user_data` field of every
`mg_connection` (by connection address) and the `MgHandler` objects that are alive
(by object address; `none` = no live object at that address). -/
structure MgHeap where
  user_data : Nat → Option Nat
  handlers : Nat → Option MgHandler

/-- A heap with no handler object and every `user_data` equal to `NULL`. -/
def MgHeap.empty : MgHeap :=
  { user_data := fun _ => none, handlers := fun _ => none }

/-- The assignment `c->user_data = v`. -/
def MgHeap.setUserData (s : MgHeap) (c : Nat) (v : Option Nat) : MgHeap :=
  { s with user_data := fun c' => if c' = c then v else s.user_data c' }

/-- Storing (or, with `none`, removing) the object at address `a`. -/
def MgHeap.setHandler (s : MgHeap) (a : Nat) (o : Option MgHandler) : MgHeap :=
  { s with handlers := fun a' => if a' = a then o else s.handlers a' }

/-- The constructor `MgHandler(mg_connection* nc)` run for the object at address `self`:
`m_nc = nc; if (m_nc) m_nc->user_data = this;`. -/
def MgHandler.construct (s : MgHeap) (self : Nat) (nc : Option Nat) : MgHeap :=
  let s1 := s.setHandler self (some { m_nc := nc })
  match nc with
  | some c => s1.setUserData c (some self)
  | none => s1

/-- The destructor `~MgHandler()` run for the object at address `self`:
`if (m_nc) m_nc->user_data = NULL;`, after which the object is gone.
Where no object lives at `self` there is nothing to destroy and the heap is returned as is. -/
def MgHandler.destruct (s : MgHeap) (self : Nat) : MgHeap :=
  match s.handlers self with
  | none => s
  | some obj =>
    let s1 := match obj.m_nc with
      | some c => s.setUserData c none
      | none => s
    s1.setHandler self none

/-- A construction or destruction of an `MgHandler`. -/
inductive MgOp where
  | construct (self : Nat) (nc : Option Nat)
  | destroy (self : Nat)
deriving DecidableEq, Repr

/-- One operation of a C++ program: an object is constructed only at an address where no
object lives, and only a live object is destroyed; anything else is no execution (`none`). -/
def MgOp.step (s : MgHeap) : MgOp → Option MgHeap
  | .construct self nc =>
    if (s.handlers self).isNone then some (MgHandler.construct s self nc) else none
  | .destroy self =>
    if (s.handlers self).isSome then some (MgHandler.destruct s self) else none

/-- A sequence of constructions and destructions, from left to right. -/
def MgHeap.run (s : MgHeap) : List MgOp → Option MgHeap
  | [] => some s
  | op :: ops => (op.step s).bind fun s1 => s1.run ops

/-- A construction respects the attach slot when the connection it binds to has
`user_data == NULL` at that moment; destructions and constructions on `NULL` always do. -/
def MgOp.slotFree (s : MgHeap) : MgOp → Bool
  | .construct _ (some c) => (s.user_data c).isNone
  | _ => true

/-- A sequence of operations each of which respects the attach slot. -/
def MgHeap.runSlotFree (s : MgHeap) : List MgOp → Option MgHeap
  | [] => some s
  | op :: ops =>
    if op.slotFree s then (op.step s).bind fun s1 => s1.runSlotFree ops else none

/-- Handler `h` is alive and bound to connection `c` (`h.m_nc == c`). -/
def MgHeap.liveOn (s : MgHeap) (c h : Nat) : Prop :=
  s.handlers h = some { m_nc := some c }

/-- The attach slot only ever points at a live handler bound to that connection. -/
def MgHeap.SlotSound (s : MgHeap) : Prop :=
  ∀ c h, s.user_data c = some h → s.liveOn c h

/-- Every live handler bound to a connection is the one in that connection's attach slot. -/
def MgHeap.SlotComplete (s : MgHeap) : Prop :=
  ∀ c h, s.liveOn c h → s.user_data c = some h

/-! ## HttpCommandStream: the two inline members -/

/-- Data members of `class HttpCommandStream` other than the task and queue handles. -/
structure HttpCommandStream where
  m_command : String
  m_done : Bool
  m_sent : Nat
  m_ack : Int
deriving DecidableEq, Repr

/-- The inline member `virtual bool IsInteractive() { return false; }`. -/
def HttpCommandStream.IsInteractive (_self : HttpCommandStream) : Bool := false

/-- The inline member `char** GetCompletion(OvmsCommandMap& children, const char* token)
{ return NULL; }`; the command map type is a parameter, `none` is `NULL`. -/
def HttpCommandStream.GetCompletion {CommandMap : Type} (_self : HttpCommandStream)
    (_children : CommandMap) (_token : Option String) : Option (List String) := none

/-! ## Chunked senders (HttpDataSender, HttpStringSender) -/

/-- The events a connection hands to `HandleEvent(int ev, void* p)`, as far as the senders
tell them apart: the last transmission has finished (send-ready), the connection was closed,
anything else. -/
inductive MgEvent where
  | send
  | close
  | other
deriving DecidableEq, Repr

/-- What a sender does to its connection: the chunk writes issued so far (oldest first) and
whether the connection was told to close once its output is flushed. -/
structure HttpConn where
  writes : List (List UInt8)
  closing : Bool
deriving DecidableEq, Repr

/-- A connection on which nothing has been written yet. -/
def HttpConn.fresh : HttpConn := { writes := [], closing := false }

/-- Data members of `class HttpDataSender` (with the inherited `m_nc`): the memory area
`m_data` of `m_size` bytes, the count `m_sent` sent up to now, and `m_keepalive`. -/
structure HttpDataSender where
  m_nc : Option Nat
  m_data : List UInt8
  m_size : Nat
  m_sent : Nat
  m_keepalive : Bool
deriving DecidableEq, Repr

/-- Data members of `class HttpStringSender` (with the inherited `m_nc`): the owned string
`m_msg`, the count `m_sent` sent up to now, and `m_keepalive`. -/
structure HttpStringSender where
  m_nc : Option Nat
  m_msg : List UInt8
  m_sent : Nat
  m_keepalive : Bool
deriving DecidableEq, Repr

/-- Modelled from the spec: the constructor `HttpDataSender(nc, data, size, keepalive)`, whose
body is not in the header. The sender starts at offset 0 over the `size` bytes at `data`. -/
def HttpDataSender.create (nc : Option Nat) (data : List UInt8) (keepalive : Bool) :
    HttpDataSender :=
  { m_nc := nc, m_data := data, m_size := data.length, m_sent := 0, m_keepalive := keepalive }

/-- Modelled from the spec: the constructor `HttpStringSender(nc, msg, keepalive)`, whose body
is not in the header. The sender takes the string over and starts at offset 0. -/
def HttpStringSender.create (nc : Option Nat) (msg : List UInt8) (keepalive : Bool) :
    HttpStringSender :=
  { m_nc := nc, m_msg := msg, m_sent := 0, m_keepalive := keepalive }

/-- Modelled from the spec: `HttpDataSender::HandleEvent`, declared in the header, body absent.
On each send-ready event it writes up to `XFER_CHUNK_SIZE` bytes starting at the current offset
and advances the offset; once the offset has reached the payload length it closes the
connection (no keep-alive) or leaves it open (keep-alive), and in both cases the handler is
destroyed (`none`). A close event destroys the handler with no further write. -/
def HttpDataSender.HandleEvent (self : HttpDataSender) (conn : HttpConn) :
    MgEvent → Option HttpDataSender × HttpConn
  | .send =>
    if self.m_sent < self.m_size then
      let len := min (self.m_size - self.m_sent) XFER_CHUNK_SIZE
      (some { self with m_sent := self.m_sent + len },
        { conn with writes := conn.writes ++ [(self.m_data.drop self.m_sent).take len] })
    else
      (none, { conn with closing := conn.closing || !self.m_keepalive })
  | .close => (none, conn)
  | .other => (some self, conn)

/-- Modelled from the spec: `HttpStringSender::HandleEvent`, declared in the header, body
absent. Same algorithm as `HttpDataSender::HandleEvent` over the owned string, which is freed
together with the handler after the last byte. -/
def HttpStringSender.HandleEvent (self : HttpStringSender) (conn : HttpConn) :
    MgEvent → Option HttpStringSender × HttpConn
  | .send =>
    if self.m_sent < self.m_msg.length then
      let len := min (self.m_msg.length - self.m_sent) XFER_CHUNK_SIZE
      (some { self with m_sent := self.m_sent + len },
        { conn with writes := conn.writes ++ [(self.m_msg.drop self.m_sent).take len] })
    else
      (none, { conn with closing := conn.closing || !self.m_keepalive })
  | .close => (none, conn)
  | .other => (some self, conn)

/-- The connection delivers `n` send-ready events; a destroyed handler receives none. -/
def HttpDataSender.sendReady : Nat → Option HttpDataSender × HttpConn →
    Option HttpDataSender × HttpConn
  | 0, st => st
  | _ + 1, (none, conn) => (none, conn)
  | n + 1, (some h, conn) => HttpDataSender.sendReady n (h.HandleEvent conn .send)

/-- The connection delivers `n` send-ready events; a destroyed handler receives none. -/
def HttpStringSender.sendReady : Nat → Option HttpStringSender × HttpConn →
    Option HttpStringSender × HttpConn
  | 0, st => st
  | _ + 1, (none, conn) => (none, conn)
  | n + 1, (some h, conn) => HttpStringSender.sendReady n (h.HandleEvent conn .send)

/-- The number of chunks of a payload of `len` bytes: `ceil(len / XFER_CHUNK_SIZE)`. -/
def chunkCount (len : Nat) : Nat := (len + (XFER_CHUNK_SIZE - 1)) / XFER_CHUNK_SIZE

/-- The chunks that `n` send-ready events produce from offset `sent` of `payload`. -/
def chunksFrom (payload : List UInt8) : Nat → Nat → List (List UInt8)
  | 0, _ => []
  | n + 1, sent =>
    if sent < payload.length then
      (payload.drop sent).take (min (payload.length - sent) XFER_CHUNK_SIZE) ::
        chunksFrom payload n (sent + min (payload.length - sent) XFER_CHUNK_SIZE)
    else []

/-- A whole transfer: a data sender is created on a fresh connection, which then delivers
`n` send-ready events. -/
def HttpDataSender.transfer (nc : Option Nat) (data : List UInt8) (keepalive : Bool) (n : Nat) :
    Option HttpDataSender × HttpConn :=
  HttpDataSender.sendReady n (some (HttpDataSender.create nc data keepalive), HttpConn.fresh)

/-- A whole transfer: a string sender is created on a fresh connection, which then delivers
`n` send-ready events. -/
def HttpStringSender.transfer (nc : Option Nat) (msg : List UInt8) (keepalive : Bool) (n : Nat) :
    Option HttpStringSender × HttpConn :=
  HttpStringSender.sendReady n (some (HttpStringSender.create nc msg keepalive), HttpConn.fresh)

/-! ## Session table -/

/-- The header's `struct user_session`: the 64-bit `id` (0 = empty slot) and `last_used`. -/
structure user_session where
  id : Nat
  last_used : Int
deriving DecidableEq, Repr

/-- The member `user_session m_sessions[NUM_SESSIONS]` of `OvmsWebServer`. -/
abbrev SessionTable := List user_session

/-- An empty slot. -/
def user_session.cleared : user_session := { id := 0, last_used := 0 }

/-- The table of a server that has not created any session: `NUM_SESSIONS` empty slots. -/
def SessionTable.init : SessionTable := List.replicate NUM_SESSIONS user_session.cleared

/-- Modelled from the spec: the validity rule of sessions, which no function body in the header
states. The data model calls a session with `now - last_used > TTL` invalid, the sweep
invalidates every slot whose age exceeds the TTL, and a session created at `t0` is retrievable
until `t0 + TTL` and absent from any sweep at or after `t0 + TTL`. The first two fix the ages
above the TTL and the last fixes the age `TTL` itself; the one rule that meets all three is
that a session is valid while its age is below the TTL and expired from the age `TTL` on. -/
def user_session.expired (s : user_session) (now : Int) : Bool :=
  decide (now - s.last_used ≥ SESSION_TTL)

/-- A slot that `CreateSession` may take: empty or expired. -/
def user_session.reusable (s : user_session) (now : Int) : Bool :=
  s.id == 0 || s.expired now

/-- Linear scan for the first slot that is empty or expired. -/
def SessionTable.findReusable (now : Int) : SessionTable → Option Nat
  | [] => none
  | s :: rest =>
    if s.reusable now then some 0 else (SessionTable.findReusable now rest).map (· + 1)

/-- The largest id in the table (0 for a table of empty slots). -/
def SessionTable.maxId : SessionTable → Nat
  | [] => 0
  | s :: rest => max s.id (SessionTable.maxId rest)

/-- Modelled from the spec: the fresh non-zero random id that `CreateSession` assigns. `rnd` is
the number drawn for the call; it is the id when it is non-zero and no slot carries it. A draw
that is zero or already in the table is not fresh and is replaced by the successor of the
largest id in the table, so that the id assigned is non-zero and new to the table for every
draw. -/
def SessionTable.freshId (t : SessionTable) (rnd : Nat) : Nat :=
  if rnd ≠ 0 ∧ ∀ s ∈ t, s.id ≠ rnd then rnd else t.maxId + 1

/-- Modelled from the spec: `OvmsWebServer::CreateSession`, declared in the header, body absent.
It finds an empty or expired slot, assigns a fresh non-zero random id (from the draw `rnd` of
this call), timestamps the slot with `now` and returns it (its index); it fails, creating no
session, when no slot is empty and none is expired. The table is never grown. -/
def OvmsWebServer.CreateSession (t : SessionTable) (now : Int) (rnd : Nat) :
    Option Nat × SessionTable :=
  match t.findReusable now with
  | some i => (some i, t.set i { id := t.freshId rnd, last_used := now })
  | none => (none, t)

/-- Modelled from the spec: `OvmsWebServer::DestroySession`, declared in the header, body
absent. It clears the slot (id becomes 0) at once. -/
def OvmsWebServer.DestroySession (t : SessionTable) (i : Nat) : SessionTable :=
  t.set i user_session.cleared

/-- Modelled from the spec: `OvmsWebServer::CheckSessions`, declared in the header, body
absent. The periodic sweep invalidates every slot that holds an expired session. -/
def OvmsWebServer.CheckSessions (t : SessionTable) (now : Int) : SessionTable :=
  t.map fun s => if s.expired now then user_session.cleared else s

/-- A call on the session table: create at time `now` with random id `rnd`, destroy slot `i`,
sweep at time `now`. -/
inductive SessionOp where
  | create (now : Int) (rnd : Nat)
  | destroy (i : Nat)
  | check (now : Int)
deriving DecidableEq, Repr

/-- The table after one call. -/
def SessionOp.apply (t : SessionTable) : SessionOp → SessionTable
  | .create now rnd => (OvmsWebServer.CreateSession t now rnd).2
  | .destroy i => OvmsWebServer.DestroySession t i
  | .check now => OvmsWebServer.CheckSessions t now

/-- The table after a sequence of calls, from left to right. -/
def SessionTable.run (t : SessionTable) (ops : List SessionOp) : SessionTable :=
  ops.foldl SessionOp.apply t

/-- The number of slots that hold a session (non-zero id). -/
def SessionTable.used (t : SessionTable) : Nat :=
  (t.filter fun s => s.id != 0).length

/-- The header's `enum WebSocketTxJobType`. -/
inductive WebSocketTxJobType where
  | WSTX_None
  | WSTX_Event
  | WSTX_MetricsAll
  | WSTX_MetricsUpdate
  | WSTX_Config
deriving DecidableEq, Repr

/-- The header's `struct WebSocketTxJob`: the job type and the union of `char* event` and
`OvmsConfigParam* config`, held as the name it points to (`none` = `NULL`). -/
structure WebSocketTxJob where
  type : WebSocketTxJobType
  payload : Option String
deriving DecidableEq, Repr

/-- The job `{ WSTX_None, NULL }`: no job. -/
def WebSocketTxJob.noJob : WebSocketTxJob := { type := .WSTX_None, payload := none }

/-- The job `{ WSTX_MetricsAll, NULL }`: a full snapshot of all metrics. -/
def WebSocketTxJob.metricsAll : WebSocketTxJob := { type := .WSTX_MetricsAll, payload := none }

/-- The job `{ WSTX_MetricsUpdate, NULL }`: an incremental metrics update. -/
def WebSocketTxJob.metricsUpdate : WebSocketTxJob :=
  { type := .WSTX_MetricsUpdate, payload := none }

/-- Data members of `class WebSocketHandler` (with the inherited `m_nc`). The queue handle
`m_jobqueue` is held as the queue's content, oldest job first, together with the length the
queue was created with; the mutex is left out (calls are taken one at a time). -/
structure WebSocketHandler where
  m_nc : Option Nat
  m_modifier : Nat
  m_jobqueue : List WebSocketTxJob
  queue_capacity : Nat
  m_jobqueue_overflow : Int
  m_job : WebSocketTxJob
  m_sent : Int
  m_ack : Int
deriving DecidableEq, Repr

/-- What the handler has done on its connection: the chunk writes issued (oldest first), the
jobs whose transmission `InitTx` has begun, and the jobs whose payload was acknowledged in
full and which `ContinueTx` has freed. -/
structure WsConn where
  writes : List (List UInt8)
  started : List WebSocketTxJob
  completed : List WebSocketTxJob
deriving DecidableEq, Repr

/-- A connection on which the handler has done nothing yet. -/
def WsConn.fresh : WsConn := { writes := [], started := [], completed := [] }

/-- Modelled from the spec: `WebSocketHandler::GetNextTxJob`, declared in the header, body
absent. It dequeues the oldest job into `m_job` and answers `true`; on an empty queue `m_job`
becomes `WSTX_None` and the answer is `false`. -/
def WebSocketHandler.GetNextTxJob (h : WebSocketHandler) : Bool × WebSocketHandler :=
  match h.m_jobqueue with
  | [] => (false, { h with m_job := WebSocketTxJob.noJob })
  | job :: rest => (true, { h with m_jobqueue := rest, m_job := job })

/-- Modelled from the spec: `WebSocketHandler::InitTx`, declared in the header, body absent.
It encodes the head of the current job's payload (`enc`, the wire encoding, belongs to the
metrics and event components), issues the first chunk write and records the bytes sent. -/
def WebSocketHandler.InitTx (enc : WebSocketTxJob → List UInt8) (h : WebSocketHandler)
    (conn : WsConn) : WebSocketHandler × WsConn :=
  let chunk := (enc h.m_job).take XFER_CHUNK_SIZE
  ({ h with m_sent := (chunk.length : Int), m_ack := 0 },
    { conn with writes := conn.writes ++ [chunk], started := conn.started ++ [h.m_job] })

/-- Modelled from the spec: taking the next job, if there is one, and starting to send it;
the handler idles otherwise. -/
def WebSocketHandler.NextTx (enc : WebSocketTxJob → List UInt8) (h : WebSocketHandler)
    (conn : WsConn) : WebSocketHandler × WsConn :=
  match h.GetNextTxJob with
  | (true, h1) => h1.InitTx enc conn
  | (false, h1) => ({ h1 with m_sent := 0, m_ack := 0 }, conn)

/-- Modelled from the spec: `WebSocketHandler::ContinueTx`, declared in the header, body
absent. Invoked on a transport acknowledgment of `acked` bytes, it advances the bytes
acknowledged; when all bytes sent are acknowledged it writes the next chunk of the payload,
or, the payload being acknowledged in full, frees the job and goes on with the next job or
idles. With no job in flight there is nothing to continue. -/
def WebSocketHandler.ContinueTx (enc : WebSocketTxJob → List UInt8) (h : WebSocketHandler)
    (conn : WsConn) (acked : Nat) : WebSocketHandler × WsConn :=
  if h.m_job.type = .WSTX_None then (h, conn)
  else
    let h1 := { h with m_ack := h.m_ack + (acked : Int) }
    if h1.m_ack = h1.m_sent then
      if h1.m_sent < ((enc h1.m_job).length : Int) then
        let chunk := ((enc h1.m_job).drop h1.m_sent.toNat).take XFER_CHUNK_SIZE
        ({ h1 with m_sent := h1.m_sent + (chunk.length : Int) },
          { conn with writes := conn.writes ++ [chunk] })
      else
        WebSocketHandler.NextTx enc h1 { conn with completed := conn.completed ++ [h1.m_job] }
    else (h1, conn)

/-- Modelled from the spec: `WebSocketHandler::ProcessTxJob`, declared in the header, body
absent. The driver: with no job in flight it takes the next job and starts it, with a job in
flight it continues that job. -/
def WebSocketHandler.ProcessTxJob (enc : WebSocketTxJob → List UInt8) (h : WebSocketHandler)
    (conn : WsConn) : WebSocketHandler × WsConn :=
  if h.m_job.type = .WSTX_None then WebSocketHandler.NextTx enc h conn
  else WebSocketHandler.ContinueTx enc h conn 0

/-- Modelled from the spec: `WebSocketHandler::AddTxJob(job, init_tx)`, declared in the header
(`init_tx` defaults to `true`), body absent. A non-blocking enqueue: on success, if `init_tx`
and no job is in flight, transmission begins; on a full queue the overflow counter is
incremented and the call fails. The escalation of a later job to a full resync after an
overflow concerns what is encoded for that job, not the queue or the counters, and is not
part of this state. -/
def WebSocketHandler.AddTxJob (enc : WebSocketTxJob → List UInt8) (h : WebSocketHandler)
    (conn : WsConn) (job : WebSocketTxJob) (init_tx : Bool) : Bool × WebSocketHandler × WsConn :=
  if h.m_jobqueue.length < h.queue_capacity then
    let h1 := { h with m_jobqueue := h.m_jobqueue ++ [job] }
    if init_tx && h1.m_job.type = .WSTX_None then (true, WebSocketHandler.ProcessTxJob enc h1 conn)
    else (true, h1, conn)
  else (false, { h with m_jobqueue_overflow := h.m_jobqueue_overflow + 1 }, conn)

/-- Modelled from the spec: the state the constructor `WebSocketHandler(nc, modifier)` sets up
before it enqueues anything: an empty queue of `capacity` jobs, no overflow, no job. -/
def WebSocketHandler.blank (nc : Option Nat) (modifier capacity : Nat) : WebSocketHandler :=
  { m_nc := nc, m_modifier := modifier, m_jobqueue := [], queue_capacity := capacity,
    m_jobqueue_overflow := 0, m_job := WebSocketTxJob.noJob, m_sent := 0, m_ack := 0 }

/-- Modelled from the spec: the constructor `WebSocketHandler(nc, modifier)`, declared in the
header, body absent. On creation the handler enqueues a `MetricsAll` job. -/
def WebSocketHandler.create (enc : WebSocketTxJob → List UInt8) (nc : Option Nat)
    (modifier capacity : Nat) : WebSocketHandler × WsConn :=
  (WebSocketHandler.AddTxJob enc (WebSocketHandler.blank nc modifier capacity) WsConn.fresh
    WebSocketTxJob.metricsAll true).2

/-- What happens to a handler: a caller enqueues a job, the transport acknowledges `n` bytes,
or the connection polls the handler. -/
inductive WsEvent where
  | addTxJob (job : WebSocketTxJob) (init_tx : Bool)
  | ack (n : Nat)
  | poll
deriving DecidableEq, Repr

/-- The handler and its connection after one event. -/
def WsEvent.apply (enc : WebSocketTxJob → List UInt8) (st : WebSocketHandler × WsConn) :
    WsEvent → WebSocketHandler × WsConn
  | .addTxJob job init_tx => (WebSocketHandler.AddTxJob enc st.1 st.2 job init_tx).2
  | .ack n => WebSocketHandler.ContinueTx enc st.1 st.2 n
  | .poll => WebSocketHandler.ProcessTxJob enc st.1 st.2

/-- The handler and its connection after a sequence of events, from left to right. -/
def WebSocketHandler.run (enc : WebSocketTxJob → List UInt8) (st : WebSocketHandler × WsConn)
    (evs : List WsEvent) : WebSocketHandler × WsConn :=
  evs.foldl (WsEvent.apply enc) st

/-- The number of `AddTxJob` calls among the events. -/
def WsEvent.attempts : List WsEvent → Nat
  | [] => 0
  | .addTxJob _ _ :: evs => WsEvent.attempts evs + 1
  | _ :: evs => WsEvent.attempts evs

/-- The number of jobs in flight: 1 for a job of any type but `WSTX_None`, 0 otherwise. -/
def WebSocketTxJob.inFlight (job : WebSocketTxJob) : Nat :=
  if job.type = .WSTX_None then 0 else 1

/-- The bookkeeping relation between a state `st` and a later state `st1` reached through
`added` calls of `AddTxJob`: the jobs begun are appended to the ones begun before; every call
is accounted for by an overflow, a job begun or a job still queued; the overflow counter does
not decrease; and no job is completed that was not begun. -/
def WsTrans (added : Nat) (st st1 : WebSocketHandler × WsConn) : Prop :=
  ∃ l : List WebSocketTxJob,
    st1.2.started = st.2.started ++ l ∧
    st1.1.m_jobqueue_overflow + (l.length : Int) + (st1.1.m_jobqueue.length : Int)
      = st.1.m_jobqueue_overflow + (st.1.m_jobqueue.length : Int) + (added : Int) ∧
    st.1.m_jobqueue_overflow ≤ st1.1.m_jobqueue_overflow ∧
    st1.2.completed.length + st1.1.m_job.inFlight
      ≤ st.2.completed.length + st.1.m_job.inFlight + l.length

/-! ## Smart EQ vehicle module: state, commands, V2 features -/

/-- The result type `OvmsVehicle::vehicle_command_t` (declared in `vehicle.h`, outside these
sources): the three values the module returns. -/
inductive vehicle_command_t where
  | NotImplemented
  | Success
  | Fail
deriving DecidableEq, Repr

/-- A frame handed to `canbus::WriteStandard(id, length, data)`. -/
structure CanWrite where
  id : Nat
  length : Nat
  data : List Nat
deriving DecidableEq, Repr

/-- The wake-up frame of `CommandWakeup`: `WriteStandard(0x634, 4, {0x40, 0x00, 0x00, 0x00})`. -/
def wakeupFrame : CanWrite := { id := 0x634, length := 4, data := [0x40, 0x00, 0x00, 0x00] }

/-- The climate frame of `CommandClimateControl`:
`WriteStandard(0x634, 4, {0x40, 0x01, 0x00, 0x00})`. -/
def climateFrame : CanWrite := { id := 0x634, length := 4, data := [0x40, 0x01, 0x00, 0x00] }

/-- The members of `OvmsVehicleSmartEQ`, the two function statics of `IncomingFrameCan1`
(`isCharging`, `lastCharging`), the module's metric `mt_bus_awake` and the standard metrics
the module writes. A metric holds the value handed to `SetValue`: integers as integers,
quotients as rationals; the rounding of a `float` is not part of this state. -/
structure OvmsVehicleSmartEQ where
  m_enable_write : Bool
  m_enable_LED_state : Bool
  m_booster_start : Bool
  m_led_state : Int
  m_candata_poll : Int
  m_candata_timer : Int
  isCharging : Bool
  lastCharging : Bool
  mt_bus_awake : Bool
  ms_v_env_hvac : Bool
  ms_v_env_cabintemp : Int
  ms_v_bat_voltage : Rat
  ms_v_bat_temp : Int
  ms_v_charge_climit : Int
  ms_v_env_handbrake : Bool
  ms_v_env_awake : Bool
  ms_v_pos_speed : Rat
  ms_v_pos_odometer : Rat
  ms_v_env_headlights : Bool
  ms_v_door_fl : Bool
  ms_v_door_fr : Bool
  ms_v_door_rl : Bool
  ms_v_door_rr : Bool
  ms_v_door_trunk : Bool
  ms_v_bat_soc : Int
  ms_v_door_chargeport : Bool
  ms_v_charge_duration_full : Int
  ms_v_bat_range_est : Int
  ms_v_env_temp : Int
  ms_v_bat_soh : Int
  ms_v_charge_pilot : Bool
  ms_v_charge_inprogress : Bool
  ms_v_charge_mode : String
  ms_v_charge_type : String
  ms_v_charge_state : String
  ms_v_charge_substate : String
  ms_v_env_on : Bool
  ms_v_tpms_rr : Rat
  ms_v_tpms_rl : Rat
  ms_v_tpms_fr : Rat
  ms_v_tpms_fl : Rat
deriving DecidableEq

/-- The loop `for (int i = 0; i < 20; i++)` of `CommandWakeup`, entered at iteration `i` with
`n` iterations to go: write the wake-up frame, wait 200 ms, read `mt_bus_awake` and leave with
`Success` if it is set. The metric is written by the task that receives frames, so what the
loop reads after the frame of iteration `i` is given as `awake i`. After the last iteration
`res` still holds `Fail`. -/
def OvmsVehicleSmartEQ.wakeupLoop (awake : Nat → Bool) :
    Nat → Nat → vehicle_command_t × List CanWrite
  | 0, _ => (.Fail, [])
  | n + 1, i =>
    if awake i then (.Success, [wakeupFrame])
    else
      ((OvmsVehicleSmartEQ.wakeupLoop awake n (i + 1)).1,
        wakeupFrame :: (OvmsVehicleSmartEQ.wakeupLoop awake n (i + 1)).2)

/-- The method `OvmsVehicleSmartEQ::CommandWakeup()`: its result and the frames it writes.
`self.mt_bus_awake` is the metric as the first test reads it, `awake i` as the loop reads it
after the frame of iteration `i`. -/
def OvmsVehicleSmartEQ.CommandWakeup (self : OvmsVehicleSmartEQ) (awake : Nat → Bool) :
    vehicle_command_t × List CanWrite :=
  if !self.m_enable_write then (.Fail, [])
  else if !self.mt_bus_awake then OvmsVehicleSmartEQ.wakeupLoop awake 20 0
  else (.Success, [])

/-- The method `OvmsVehicleSmartEQ::CommandClimateControl(bool enable)`: its result, the frames
it writes (those of `CommandWakeup` first) and the module afterwards. `base` is the default
implementation `OvmsVehicle::CommandClimateControl` (outside these sources), used when the
result is `NotImplemented`. -/
def OvmsVehicleSmartEQ.CommandClimateControl (self : OvmsVehicleSmartEQ) (awake : Nat → Bool)
    (base : Bool → vehicle_command_t) (enable : Bool) :
    vehicle_command_t × List CanWrite × OvmsVehicleSmartEQ :=
  if !self.m_enable_write then (.Fail, [], self)
  else
    let r : vehicle_command_t × List CanWrite × OvmsVehicleSmartEQ :=
      if enable then
        let w := self.CommandWakeup awake
        if w.1 = .Success then
          (.Success, w.2 ++ List.replicate 10 climateFrame, { self with m_booster_start := true })
        else (.Fail, w.2, self)
      else (.NotImplemented, [], self)
    if r.1 = .NotImplemented then (base enable, r.2.1, r.2.2) else r

/-- The configuration store `MyConfig` (outside these sources) as far as the module uses it:
the value of each parameter instance, `none` while it was never set. -/
abbrev OvmsConfig := String → String → Option String

/-- The call `MyConfig.SetParamValue(param, instance, value)`. -/
def OvmsConfig.SetParamValue (cfg : OvmsConfig) (param inst value : String) : OvmsConfig :=
  fun p i => if p = param ∧ i = inst then some value else cfg p i

/-- The call `MyConfig.GetParamValue(param, instance, default)`. -/
def OvmsConfig.GetParamValue (cfg : OvmsConfig) (param inst defvalue : String) : String :=
  (cfg param inst).getD defvalue

/-- The call `MyConfig.SetParamValueBool(param, instance, value)`: the boolean is stored as
`yes` or `no`. -/
def OvmsConfig.SetParamValueBool (cfg : OvmsConfig) (param inst : String) (value : Bool) :
    OvmsConfig :=
  cfg.SetParamValue param inst (if value then "yes" else "no")

/-- The call `MyConfig.GetParamValueBool(param, instance, default)`: the default while the
instance was never set, otherwise whether the stored value is `yes`. -/
def OvmsConfig.GetParamValueBool (cfg : OvmsConfig) (param inst : String) (defvalue : Bool) :
    Bool :=
  match cfg param inst with
  | none => defvalue
  | some v => v == "yes"

/-- The expression `(bits & 1) != 0` on a 32-bit `int` in two's complement. -/
def intBit0 (bits : Int) : Bool :=
  ((bits % 2 ^ 32).toNat &&& 1) != 0

/-- The method `OvmsVehicleSmartEQ::SetFeature(int key, const char* value)`: its result and the
configuration afterwards. `atoi` is the C library function, `base` the default implementation
`OvmsVehicle::SetFeature`. -/
def OvmsVehicleSmartEQ.SetFeature (atoi : String → Int) (base : Int → String → Bool)
    (cfg : OvmsConfig) (key : Int) (value : String) : Bool × OvmsConfig :=
  if key = 10 then (true, cfg.SetParamValue "xsq" "suffsoc" value)
  else if key = 11 then (true, cfg.SetParamValue "xsq" "suffrange" value)
  else if key = 15 then
    let bits := atoi value
    (true, cfg.SetParamValueBool "xsq" "canwrite" (intBit0 bits))
  else (base key value, cfg)

/-- The method `OvmsVehicleSmartEQ::GetFeature(int key)`. `base` is the default implementation
`OvmsVehicle::GetFeature`; `sprintf(buf, "%d", bits)` prints the decimal digits of `bits`. -/
def OvmsVehicleSmartEQ.GetFeature (base : Int → String) (cfg : OvmsConfig) (key : Int) :
    String :=
  if key = 10 then cfg.GetParamValue "xsq" "suffsoc" "0"
  else if key = 11 then cfg.GetParamValue "xsq" "suffrange" "0"
  else if key = 15 then
    let bits : Int := if cfg.GetParamValueBool "xsq" "canwrite" false then 1 else 0
    toString bits
  else base key

/-- A Smart EQ module as the constructor leaves it (`m_booster_start = false`,
`m_led_state = 0`) with the two configuration flags as `ConfigChanged` loads them; the members
the constructor does not set and the metrics before any frame are zero, false or empty. -/
def OvmsVehicleSmartEQ.fresh (canwrite led : Bool) : OvmsVehicleSmartEQ :=
  { m_enable_write := canwrite, m_enable_LED_state := led, m_booster_start := false,
    m_led_state := 0, m_candata_poll := 0, m_candata_timer := 0, isCharging := false,
    lastCharging := false, mt_bus_awake := false, ms_v_env_hvac := false,
    ms_v_env_cabintemp := 0, ms_v_bat_voltage := 0, ms_v_bat_temp := 0,
    ms_v_charge_climit := 0, ms_v_env_handbrake := false, ms_v_env_awake := false,
    ms_v_pos_speed := 0, ms_v_pos_odometer := 0, ms_v_env_headlights := false,
    ms_v_door_fl := false, ms_v_door_fr := false, ms_v_door_rl := false,
    ms_v_door_rr := false, ms_v_door_trunk := false, ms_v_bat_soc := 0,
    ms_v_door_chargeport := false, ms_v_charge_duration_full := 0, ms_v_bat_range_est := 0,
    ms_v_env_temp := 0, ms_v_bat_soh := 0, ms_v_charge_pilot := false,
    ms_v_charge_inprogress := false, ms_v_charge_mode := "", ms_v_charge_type := "",
    ms_v_charge_state := "", ms_v_charge_substate := "", ms_v_env_on := false,
    ms_v_tpms_rr := 0, ms_v_tpms_rl := 0, ms_v_tpms_fr := 0, ms_v_tpms_fl := 0 }

/-! ## Housekeeping ticker -/

/-- Addition of two `TickType_t` (32-bit unsigned) values. -/
def tickAdd (a b : Nat) : Nat := (a + b) % 2 ^ 32

/-- Subtraction of two `TickType_t` (32-bit unsigned) values. -/
def tickSub (a b : Nat) : Nat := (a % 2 ^ 32 + 2 ^ 32 - b % 2 ^ 32) % 2 ^ 32

/-- The fields of `struct tm` that the ticker reads. -/
structure tm where
  tm_sec : Nat
  tm_min : Nat
  tm_hour : Nat
  tm_wday : Nat
deriving DecidableEq, Repr

/-- The conversion `(int)` of a 32-bit unsigned value: values from `2^31` on come out
negative (two's complement). -/
def intOfU32 (n : Nat) : Int :=
  if n % 2 ^ 32 < 2 ^ 31 then ((n % 2 ^ 32 : Nat) : Int) else ((n % 2 ^ 32 : Nat) : Int) - 2 ^ 32

/-- What `HousekeepingTicker1` keeps between calls: its function static `last_tick`, the
global `monotonictime` (declared outside these sources; a 32-bit unsigned count of seconds),
the file static `int tick`, and the two metrics it sets. -/
structure HousekeepingState where
  last_tick : Nat
  monotonictime : Nat
  tick : Int
  ms_m_monotonic : Int
  ms_m_timeutc : Int
deriving DecidableEq, Repr

/-- What one call of `HousekeepingTicker1` reads from outside: the tick count
`xTaskGetTickCount()`, the time `time(NULL)` and the local time `localtime_r`. -/
structure TickerCall where
  curr_tick : Nat
  now : Int
  tmu : tm
deriving DecidableEq, Repr

/-- The statement `tick++` and the nested tests that follow it: the events signalled after
`ticker.1`, in order, and the counter afterwards. The remainders are only compared with 0. -/
def tickEvents (tick0 : Int) : List String × Int :=
  let tick := tick0 + 1
  if tick % 10 = 0 then
    if tick % 60 = 0 then
      if tick % 300 = 0 then
        if tick % 600 = 0 then
          if tick % 3600 = 0 then
            (["ticker.10", "ticker.60", "ticker.300", "ticker.600", "ticker.3600"], 0)
          else (["ticker.10", "ticker.60", "ticker.300", "ticker.600"], tick)
        else (["ticker.10", "ticker.60", "ticker.300"], tick)
      else (["ticker.10", "ticker.60"], tick)
    else (["ticker.10"], tick)
  else ([], tick)

/-- The format `%02d` for a number of at most two digits. -/
def pad2 (n : Nat) : String := if n < 10 then "0" ++ toString n else toString n

/-- The clock events at the start of a minute: `clock.HHMM`, and `clock.dayN` at midnight. -/
def clockEvents (t : tm) : List String :=
  if t.tm_sec = 0 then
    ("clock." ++ pad2 t.tm_hour ++ pad2 t.tm_min) ::
      (if t.tm_hour = 0 ∧ t.tm_min = 0 then ["clock.day" ++ toString t.tm_wday] else [])
  else []

/-- The body of `HousekeepingTicker1` below the duplicate guard: the state afterwards and the
events signalled, in order. `HousekeepingUpdate12V()` touches none of these fields. -/
def HousekeepingTicker1.process (c : TickerCall) (s : HousekeepingState) :
    HousekeepingState × List String :=
  ({ last_tick := c.curr_tick,
     monotonictime := (s.monotonictime + 1) % 2 ^ 32,
     tick := (tickEvents s.tick).2,
     ms_m_monotonic := intOfU32 ((s.monotonictime + 1) % 2 ^ 32),
     ms_m_timeutc := c.now },
    "ticker.1" :: (tickEvents s.tick).1 ++ clockEvents c.tmu)

/-- The timer callback `HousekeepingTicker1(timer)` with `period = xTimerGetPeriod(timer)`:
`if (curr_tick < last_tick + period - 3) return;` in 32-bit unsigned arithmetic, then the
body. -/
def HousekeepingTicker1 (period : Nat) (c : TickerCall) (s : HousekeepingState) :
    HousekeepingState × List String :=
  if c.curr_tick < tickSub (tickAdd s.last_tick period) 3 then (s, [])
  else HousekeepingTicker1.process c s

/-- The state after a sequence of processed calls (calls that pass the guard). -/
def HousekeepingTicker1.processAll (s : HousekeepingState) (calls : List TickerCall) :
    HousekeepingState :=
  calls.foldl (fun st c => (HousekeepingTicker1.process c st).1) s

/-- The ticker events of the `n`-th tick as the flat rule states them: for each `N` of 10, 60,
300, 600, 3600, in increasing order, `ticker.N` exactly when `N` divides `n`. -/
def tickerEventsSpec (n : Nat) : List String :=
  ([10, 60, 300, 600, 3600].filter fun N => N ∣ n).map fun N => "ticker." ++ toString N

/-! ## Smart EQ vehicle module: incoming frames -/

/-- A received frame `CAN_frame_t` as far as the vehicle modules read it: the message ID and
the data bytes `data.u8`. -/
structure CAN_frame_t where
  MsgID : Nat
  u8 : List Nat
deriving DecidableEq, Repr

/-- The macro `CAN_BYTE(b)` of `vehicle.h` (outside these sources): the data byte `data[b]`. -/
def CAN_frame_t.CAN_BYTE (f : CAN_frame_t) (b : Nat) : Nat := f.u8.getD b 0 % 256

/-- The macro `CAN_UINT(b)` of `vehicle.h` (outside these sources): the 16-bit number in the
bytes `b`, `b+1`, most significant first. -/
def CAN_frame_t.CAN_UINT (f : CAN_frame_t) (b : Nat) : Nat :=
  (f.CAN_BYTE b <<< 8) ||| f.CAN_BYTE (b + 1)

/-- The macro `CAN_UINT32(b)` of `vehicle.h` (outside these sources): the 32-bit number in the
bytes `b` to `b+3`, most significant first. -/
def CAN_frame_t.CAN_UINT32 (f : CAN_frame_t) (b : Nat) : Nat :=
  (f.CAN_BYTE b <<< 24) ||| (f.CAN_BYTE (b + 1) <<< 16) ||| (f.CAN_BYTE (b + 2) <<< 8) |||
    f.CAN_BYTE (b + 3)

/-- The data word `p_frame->data.u64`: the eight data bytes as one 64-bit number, `data[0]`
least significant (the byte order of the module's processor). -/
def CAN_frame_t.u64 (f : CAN_frame_t) : Nat :=
  ((List.range 8).map fun i => f.CAN_BYTE i <<< (8 * i)).foldl (· ||| ·) 0

/-- The method `OvmsVehicleSmartEQ::swap_uint64` on a 64-bit value: the byte swap by three
rounds of shifts and masks. -/
def swap_uint64 (val : Nat) : Nat :=
  let v1 := ((val <<< 8) &&& 0xFF00FF00FF00FF00) ||| ((val >>> 8) &&& 0x00FF00FF00FF00FF)
  let v2 := ((v1 <<< 16) &&& 0xFFFF0000FFFF0000) ||| ((v1 >>> 16) &&& 0x0000FFFF0000FFFF)
  ((v2 <<< 32) % 2 ^ 64) ||| (v2 >>> 32)

/-- Subtraction of two `uint64_t` values. -/
def u64Sub (a b : Nat) : Nat := (a % 2 ^ 64 + 2 ^ 64 - b % 2 ^ 64) % 2 ^ 64

/-- The case `0x658` of `IncomingFrameCan1`: the state of health, the charge-in-progress bit
and, on a change of that bit against `lastCharging`, the charge metrics. -/
def OvmsVehicleSmartEQ.frame658 (f : CAN_frame_t) (self : OvmsVehicleSmartEQ) :
    OvmsVehicleSmartEQ :=
  let s1 := { self with ms_v_bat_soh := ((f.CAN_BYTE 4 &&& 0x7F : Nat) : Int),
                        isCharging := (f.CAN_BYTE 5 &&& 0x20) != 0 }
  let s2 :=
    if s1.isCharging != s1.lastCharging then
      if s1.isCharging then
        { s1 with ms_v_charge_pilot := true, ms_v_charge_inprogress := s1.isCharging,
                  ms_v_charge_mode := "standard", ms_v_charge_type := "type2",
                  ms_v_charge_state := "charging", ms_v_charge_substate := "onrequest" }
      else
        let s3 := { s1 with ms_v_charge_pilot := false, ms_v_charge_inprogress := s1.isCharging,
                            ms_v_charge_mode := "standard", ms_v_charge_type := "type2" }
        if s3.ms_v_bat_soc < 95 then
          { s3 with ms_v_charge_state := "stopped", ms_v_charge_substate := "interrupted" }
        else
          { s3 with ms_v_charge_state := "done", ms_v_charge_substate := "onrequest" }
    else s1
  { s2 with lastCharging := s2.isCharging }

/-- The head of `IncomingFrameCan1`, run for every frame: the bus is taken as awake once the
battery voltage is above 100 V, and the activity timer is set to `SQ_CANDATA_TIMEOUT` (a
constant of the module's header, outside these sources). -/
def OvmsVehicleSmartEQ.frameActivity (SQ_CANDATA_TIMEOUT : Int) (self : OvmsVehicleSmartEQ) :
    OvmsVehicleSmartEQ :=
  let s0 :=
    if self.m_candata_poll ≠ 1 ∧ self.ms_v_bat_voltage > 100 then
      { self with mt_bus_awake := true, m_candata_poll := 1 }
    else self
  { s0 with m_candata_timer := SQ_CANDATA_TIMEOUT }

/-- The case `0x392` of `IncomingFrameCan1`: HVAC and cabin temperature. -/
def OvmsVehicleSmartEQ.frame392 (f : CAN_frame_t) (s : OvmsVehicleSmartEQ) :
    OvmsVehicleSmartEQ :=
  { s with ms_v_env_hvac := decide ((f.CAN_BYTE 1 &&& 0x40) > 0),
           ms_v_env_cabintemp := (f.CAN_BYTE 5 : Int) - 40 }

/-- The case `0x42E` of `IncomingFrameCan1`, with `c = swap_uint64(p_frame->data.u64)`: HV
voltage, HV battery temperature `((c >> 13) & 0x7Fu) - 40` (an expression of type `uint64_t`)
and the negotiated charge current. -/
def OvmsVehicleSmartEQ.frame42E (f : CAN_frame_t) (s : OvmsVehicleSmartEQ) :
    OvmsVehicleSmartEQ :=
  let c := swap_uint64 f.u64
  { s with ms_v_bat_voltage := ((((f.CAN_UINT 3 >>> 5) &&& 0x3ff : Nat) : Rat)) / 2,
           ms_v_bat_temp := ((u64Sub ((c >>> 13) &&& 0x7F) 40 : Nat) : Int),
           ms_v_charge_climit := (((c >>> 20) &&& 0x3F : Nat) : Int) }

/-- The case `0x4F8` of `IncomingFrameCan1`: handbrake and ignition. -/
def OvmsVehicleSmartEQ.frame4F8 (f : CAN_frame_t) (s : OvmsVehicleSmartEQ) :
    OvmsVehicleSmartEQ :=
  { s with ms_v_env_handbrake := decide ((f.CAN_BYTE 0 &&& 0x08) > 0),
           ms_v_env_awake := decide ((f.CAN_BYTE 0 &&& 0x40) > 0) }

/-- The case `0x5D7` of `IncomingFrameCan1`: speed and odometer. -/
def OvmsVehicleSmartEQ.frame5D7 (f : CAN_frame_t) (s : OvmsVehicleSmartEQ) :
    OvmsVehicleSmartEQ :=
  { s with ms_v_pos_speed := ((f.CAN_UINT 0 : Nat) : Rat) / 100,
           ms_v_pos_odometer := ((f.CAN_UINT32 2 >>> 4 : Nat) : Rat) / 100 }

/-- The case `0x5de` of `IncomingFrameCan1`: headlights and doors. -/
def OvmsVehicleSmartEQ.frame5DE (f : CAN_frame_t) (s : OvmsVehicleSmartEQ) :
    OvmsVehicleSmartEQ :=
  { s with ms_v_env_headlights := decide ((f.CAN_BYTE 0 &&& 0x04) > 0),
           ms_v_door_fl := decide ((f.CAN_BYTE 1 &&& 0x08) > 0),
           ms_v_door_fr := decide ((f.CAN_BYTE 1 &&& 0x02) > 0),
           ms_v_door_rl := decide ((f.CAN_BYTE 2 &&& 0x40) > 0),
           ms_v_door_rr := decide ((f.CAN_BYTE 2 &&& 0x10) > 0),
           ms_v_door_trunk := decide ((f.CAN_BYTE 7 &&& 0x10) > 0) }

/-- The case `0x654` of `IncomingFrameCan1`, with `c = swap_uint64(p_frame->data.u64)`: SOC,
charge plug, time to full and, unless it reads 1023, the estimated range. -/
def OvmsVehicleSmartEQ.frame654 (f : CAN_frame_t) (s : OvmsVehicleSmartEQ) :
    OvmsVehicleSmartEQ :=
  let c := swap_uint64 f.u64
  let s1 := { s with ms_v_bat_soc := (f.CAN_BYTE 3 : Int),
                     ms_v_door_chargeport := (f.CAN_BYTE 0 &&& 0x20) != 0,
                     ms_v_charge_duration_full :=
                       if ((c >>> 22) &&& 0x3ff) < 0x3ff then (((c >>> 22) &&& 0x3ff : Nat) : Int)
                       else 0 }
  if ((c >>> 12) &&& 0x3FF) ≠ 1023 then
    { s1 with ms_v_bat_range_est := (((c >>> 12) &&& 0x3FF : Nat) : Int) }
  else s1

/-- The case `0x65C` of `IncomingFrameCan1`: external temperature. -/
def OvmsVehicleSmartEQ.frame65C (f : CAN_frame_t) (s : OvmsVehicleSmartEQ) :
    OvmsVehicleSmartEQ :=
  { s with ms_v_env_temp := ((f.CAN_BYTE 0 >>> 1 : Nat) : Int) - 40 }

/-- The case `0x668` of `IncomingFrameCan1`: drive ready. -/
def OvmsVehicleSmartEQ.frame668 (f : CAN_frame_t) (s : OvmsVehicleSmartEQ) :
    OvmsVehicleSmartEQ :=
  { s with ms_v_env_on := decide ((f.CAN_BYTE 0 &&& 0x40) > 0) }

/-- The statement `if (CAN_BYTE(2) != 0xff) ...SetElemValue(MS_V_TPMS_IDX_RR, CAN_BYTE(2)*3.1)`
of the case `0x673`. -/
def OvmsVehicleSmartEQ.tpmsRR (f : CAN_frame_t) (s : OvmsVehicleSmartEQ) : OvmsVehicleSmartEQ :=
  if f.CAN_BYTE 2 ≠ 0xff then { s with ms_v_tpms_rr := (f.CAN_BYTE 2 : Rat) * (31 / 10) } else s

/-- The statement `if (CAN_BYTE(3) != 0xff) ...SetElemValue(MS_V_TPMS_IDX_RL, CAN_BYTE(3)*3.1)`
of the case `0x673`. -/
def OvmsVehicleSmartEQ.tpmsRL (f : CAN_frame_t) (s : OvmsVehicleSmartEQ) : OvmsVehicleSmartEQ :=
  if f.CAN_BYTE 3 ≠ 0xff then { s with ms_v_tpms_rl := (f.CAN_BYTE 3 : Rat) * (31 / 10) } else s

/-- The statement `if (CAN_BYTE(4) != 0xff) ...SetElemValue(MS_V_TPMS_IDX_FR, CAN_BYTE(4)*3.1)`
of the case `0x673`. -/
def OvmsVehicleSmartEQ.tpmsFR (f : CAN_frame_t) (s : OvmsVehicleSmartEQ) : OvmsVehicleSmartEQ :=
  if f.CAN_BYTE 4 ≠ 0xff then { s with ms_v_tpms_fr := (f.CAN_BYTE 4 : Rat) * (31 / 10) } else s

/-- The statement `if (CAN_BYTE(5) != 0xff) ...SetElemValue(MS_V_TPMS_IDX_FL, CAN_BYTE(5)*3.1)`
of the case `0x673`. -/
def OvmsVehicleSmartEQ.tpmsFL (f : CAN_frame_t) (s : OvmsVehicleSmartEQ) : OvmsVehicleSmartEQ :=
  if f.CAN_BYTE 5 ≠ 0xff then { s with ms_v_tpms_fl := (f.CAN_BYTE 5 : Rat) * (31 / 10) } else s

/-- The case `0x673` of `IncomingFrameCan1`: the four tyre pressures, each unless its byte is
`0xff`, in the order rear right, rear left, front right, front left. -/
def OvmsVehicleSmartEQ.frame673 (f : CAN_frame_t) (s : OvmsVehicleSmartEQ) :
    OvmsVehicleSmartEQ :=
  (((s.tpmsRR f).tpmsRL f).tpmsFR f).tpmsFL f

/-- The statement `switch (p_frame->MsgID)` of `IncomingFrameCan1`. -/
def OvmsVehicleSmartEQ.frameSwitch (f : CAN_frame_t) (s : OvmsVehicleSmartEQ) :
    OvmsVehicleSmartEQ :=
  if f.MsgID = 0x392 then s.frame392 f
  else if f.MsgID = 0x42E then s.frame42E f
  else if f.MsgID = 0x4F8 then s.frame4F8 f
  else if f.MsgID = 0x5D7 then s.frame5D7 f
  else if f.MsgID = 0x5de then s.frame5DE f
  else if f.MsgID = 0x654 then s.frame654 f
  else if f.MsgID = 0x65C then s.frame65C f
  else if f.MsgID = 0x658 then s.frame658 f
  else if f.MsgID = 0x668 then s.frame668 f
  else if f.MsgID = 0x673 then s.frame673 f
  else s

/-- The method `OvmsVehicleSmartEQ::IncomingFrameCan1(CAN_frame_t* p_frame)`: the head, then
the switch on the message ID. -/
def OvmsVehicleSmartEQ.IncomingFrameCan1 (SQ_CANDATA_TIMEOUT : Int) (f : CAN_frame_t)
    (self : OvmsVehicleSmartEQ) : OvmsVehicleSmartEQ :=
  (self.frameActivity SQ_CANDATA_TIMEOUT).frameSwitch f

/-- The charge-in-progress bit of a `0x658` frame: `CAN_BYTE(5) & 0x20`, as a boolean. -/
def CAN_frame_t.chargeBit (f : CAN_frame_t) : Bool := (f.CAN_BYTE 5 &&& 0x20) != 0

/-- The six charge metrics the `0x658` case writes: pilot, in progress, mode, type, state and
substate. -/
def OvmsVehicleSmartEQ.chargeMetrics (self : OvmsVehicleSmartEQ) :
    Bool × Bool × String × String × String × String :=
  (self.ms_v_charge_pilot, self.ms_v_charge_inprogress, self.ms_v_charge_mode,
    self.ms_v_charge_type, self.ms_v_charge_state, self.ms_v_charge_substate)

/-! ## Volt/Ampera vehicle module -/

/-- The members of `OvmsVehicleVoltAmpera` that `IncomingFrameCan1` and `Ticker1` use (with the
inherited `m_poll_state`) and the standard metrics they read and write. The two charger
metrics hold what `AsInt()` reads from them. -/
structure OvmsVehicleVoltAmpera where
  m_vin : List Nat
  m_type : List Nat
  m_charge_timer : Int
  m_charge_wm : Int
  m_candata_timer : Int
  m_poll_state : Int
  ms_v_vin : List Nat
  ms_v_type : List Nat
  ms_v_env_gear : Int
  ms_v_env_on : Bool
  ms_v_env_awake : Bool
  ms_v_env_handbrake : Bool
  ms_v_env_charging12v : Bool
  ms_v_charge_current : Int
  ms_v_charge_voltage : Int
  ms_v_charge_pilot : Bool
  ms_v_charge_inprogress : Bool
  ms_v_door_chargeport : Bool
  ms_v_charge_mode : String
  ms_v_charge_state : String
  ms_v_charge_substate : String
  ms_v_charge_climit : Int
  ms_v_charge_kwh : Int
  ms_v_bat_soc : Int
deriving DecidableEq

/-- The module as the constructor leaves it: `m_vin` zeroed, `m_type = "VA"`, the three
counters 0, poll state 0; the metrics before any frame are zero, false or empty. -/
def OvmsVehicleVoltAmpera.fresh : OvmsVehicleVoltAmpera :=
  { m_vin := List.replicate 18 0, m_type := [86, 65, 0, 0], m_charge_timer := 0,
    m_charge_wm := 0, m_candata_timer := 0, m_poll_state := 0, ms_v_vin := [],
    ms_v_type := [], ms_v_env_gear := 0, ms_v_env_on := false, ms_v_env_awake := false,
    ms_v_env_handbrake := false, ms_v_env_charging12v := false, ms_v_charge_current := 0,
    ms_v_charge_voltage := 0, ms_v_charge_pilot := false, ms_v_charge_inprogress := false,
    ms_v_door_chargeport := false, ms_v_charge_mode := "", ms_v_charge_state := "",
    ms_v_charge_substate := "", ms_v_charge_climit := 0, ms_v_charge_kwh := 0,
    ms_v_bat_soc := 0 }

/-- The call `PollSetState(state)` of the base class (outside these sources) as far as the
module reads it back: `m_poll_state` becomes `state`. -/
def OvmsVehicleVoltAmpera.PollSetState (state : Int) (self : OvmsVehicleVoltAmpera) :
    OvmsVehicleVoltAmpera :=
  { self with m_poll_state := state }

/-- The loop `for (k=0;k<8;k++) buf[k+off] = d[k];`. -/
def copyFrameBytes (f : CAN_frame_t) (off : Nat) (buf : List Nat) : List Nat :=
  (List.range 8).foldl (fun b k => b.set (k + off) (f.CAN_BYTE k)) buf

/-- A character buffer read as a C string: the bytes before the first 0. -/
def cString (buf : List Nat) : List Nat := buf.takeWhile (· ≠ 0)

/-- The statement `if (m_poll_state != 1) PollSetState(1);` of `IncomingFrameCan1`. -/
def OvmsVehicleVoltAmpera.resumePolling (self : OvmsVehicleVoltAmpera) :
    OvmsVehicleVoltAmpera :=
  if self.m_poll_state ≠ 1 then self.PollSetState 1 else self

/-- The case `0x4e1` of `IncomingFrameCan1`: the second half of the VIN. -/
def OvmsVehicleVoltAmpera.frame4E1 (f : CAN_frame_t) (s : OvmsVehicleVoltAmpera) :
    OvmsVehicleVoltAmpera :=
  { s with m_vin := copyFrameBytes f 9 s.m_vin }

/-- The case `0x514` of `IncomingFrameCan1`: the first half of the VIN; once the second half
is there the VIN and the type are published. -/
def OvmsVehicleVoltAmpera.frame514 (f : CAN_frame_t) (s : OvmsVehicleVoltAmpera) :
    OvmsVehicleVoltAmpera :=
  let s1 := { s with m_vin := ((copyFrameBytes f 1 s.m_vin).set 0 49).set 17 0 }
  if s1.m_vin.getD 9 0 ≠ 0 then
    { s1 with ms_v_vin := cString s1.m_vin, ms_v_type := cString s1.m_type }
  else s1

/-- The case `0x135` of `IncomingFrameCan1`: park or not park. -/
def OvmsVehicleVoltAmpera.frame135 (f : CAN_frame_t) (s : OvmsVehicleVoltAmpera) :
    OvmsVehicleVoltAmpera :=
  if f.CAN_BYTE 0 = 0 then
    { s with ms_v_env_gear := 0, ms_v_env_on := false, ms_v_env_awake := false,
             ms_v_env_handbrake := true }
  else
    { s with ms_v_env_gear := 0, ms_v_env_on := true, ms_v_env_awake := true,
             ms_v_env_handbrake := false }

/-- The method `OvmsVehicleVoltAmpera::IncomingFrameCan1(CAN_frame_t* p_frame)`: poll responses
are ignored; any other frame resumes polling, sets the activity timer to 60 and is processed
by its ID. -/
def OvmsVehicleVoltAmpera.IncomingFrameCan1 (f : CAN_frame_t) (self : OvmsVehicleVoltAmpera) :
    OvmsVehicleVoltAmpera :=
  if f.MsgID = 0x7e8 ∨ f.MsgID = 0x7ec ∨ f.MsgID = 0x7e9 then self
  else
    let s := { self.resumePolling with m_candata_timer := 60 }
    if f.MsgID = 0x4e1 then s.frame4E1 f
    else if f.MsgID = 0x514 then s.frame514 f
    else if f.MsgID = 0x135 then s.frame135 f
    else s

/-- The first part of `Ticker1`: the CAN-bus timeout. While the activity timer is positive it
is decremented; on reaching 0 the car is reported asleep and polling stops, otherwise the car
is reported awake. -/
def OvmsVehicleVoltAmpera.sleepTick (self : OvmsVehicleVoltAmpera) : OvmsVehicleVoltAmpera :=
  if self.m_candata_timer > 0 then
    if self.m_candata_timer - 1 = 0 then
      ({ self with m_candata_timer := self.m_candata_timer - 1, ms_v_env_gear := 0,
                   ms_v_env_on := false, ms_v_env_awake := false,
                   ms_v_env_handbrake := true }).PollSetState 0
    else
      { self with m_candata_timer := self.m_candata_timer - 1, ms_v_env_on := true,
                  ms_v_env_awake := true, ms_v_env_handbrake := false }
  else self

/-- The branch "a charge has started" of `Ticker1`. -/
def OvmsVehicleVoltAmpera.chargeStarted (s : OvmsVehicleVoltAmpera) : OvmsVehicleVoltAmpera :=
  { s with ms_v_charge_pilot := true, ms_v_charge_inprogress := true,
           ms_v_door_chargeport := true, ms_v_charge_mode := "standard",
           ms_v_charge_state := "charging", ms_v_charge_substate := "onrequest",
           ms_v_charge_climit := 16, m_charge_timer := 0, m_charge_wm := 0 }

/-- The branch "a charge is ongoing" of `Ticker1`: the minute counter and the watt-minute
accumulator, 10 units of `ms_v_charge_kwh` for every 60000 accumulated. -/
def OvmsVehicleVoltAmpera.chargeOngoing (s : OvmsVehicleVoltAmpera) : OvmsVehicleVoltAmpera :=
  if s.m_charge_timer + 1 ≥ 60 then
    if s.m_charge_wm + s.ms_v_charge_voltage * s.ms_v_charge_current > 60000 then
      { s with m_charge_timer := s.m_charge_timer + 1 - 60,
               m_charge_wm := s.m_charge_wm + s.ms_v_charge_voltage * s.ms_v_charge_current
                 - 60000,
               ms_v_charge_kwh := s.ms_v_charge_kwh + 10 }
    else
      { s with m_charge_timer := s.m_charge_timer + 1 - 60,
               m_charge_wm := s.m_charge_wm + s.ms_v_charge_voltage * s.ms_v_charge_current }
  else { s with m_charge_timer := s.m_charge_timer + 1 }

/-- The branch "the charge has completed/stopped" of `Ticker1`. -/
def OvmsVehicleVoltAmpera.chargeEnded (s : OvmsVehicleVoltAmpera) : OvmsVehicleVoltAmpera :=
  if s.ms_v_bat_soc < 95 then
    { s with ms_v_charge_pilot := false, ms_v_charge_inprogress := false,
             ms_v_door_chargeport := false, ms_v_charge_mode := "standard",
             ms_v_charge_state := "stopped", ms_v_charge_substate := "interrupted",
             m_charge_timer := 0, m_charge_wm := 0 }
  else
    { s with ms_v_charge_pilot := false, ms_v_charge_inprogress := false,
             ms_v_door_chargeport := false, ms_v_charge_mode := "standard",
             ms_v_charge_state := "done", ms_v_charge_substate := "onrequest",
             m_charge_timer := 0, m_charge_wm := 0 }

/-- The second part of `Ticker1`: the charge state machine on the charger current `cc` and
voltage `cv`. -/
def OvmsVehicleVoltAmpera.chargeTick (self : OvmsVehicleVoltAmpera) : OvmsVehicleVoltAmpera :=
  if self.ms_v_charge_current ≠ 0 ∧ self.ms_v_charge_voltage ≠ 0 then
    if self.ms_v_charge_inprogress = false then
      ({ self with ms_v_env_charging12v := true }).chargeStarted
    else ({ self with ms_v_env_charging12v := true }).chargeOngoing
  else if self.ms_v_charge_current = 0 ∧ self.ms_v_charge_voltage = 0 then
    if self.ms_v_charge_inprogress then
      { self.chargeEnded with ms_v_env_charging12v := false }
    else { self with ms_v_env_charging12v := false }
  else self

/-- The method `OvmsVehicleVoltAmpera::Ticker1(uint32_t ticker)`: the CAN-bus timeout, then the
charge state machine. -/
def OvmsVehicleVoltAmpera.Ticker1 (_ticker : Nat) (self : OvmsVehicleVoltAmpera) :
    OvmsVehicleVoltAmpera :=
  self.sleepTick.chargeTick

/-- The module after `n` calls of `Ticker1` with nothing else in between. -/
def OvmsVehicleVoltAmpera.ticks : Nat → OvmsVehicleVoltAmpera → OvmsVehicleVoltAmpera
  | 0, s => s
  | n + 1, s => OvmsVehicleVoltAmpera.ticks n (s.Ticker1 0)

/-- The charge fields of the module: pilot, in progress, charge port, mode, state, substate,
current limit, energy counter, minute counter, watt-minute accumulator and the 12 V charging
flag. -/
def OvmsVehicleVoltAmpera.chargeFields (s : OvmsVehicleVoltAmpera) :
    Bool × Bool × Bool × String × String × String × Int × Int × Int × Int × Bool :=
  (s.ms_v_charge_pilot, s.ms_v_charge_inprogress, s.ms_v_door_chargeport, s.ms_v_charge_mode,
    s.ms_v_charge_state, s.ms_v_charge_substate, s.ms_v_charge_climit, s.ms_v_charge_kwh,
    s.m_charge_timer, s.m_charge_wm, s.ms_v_env_charging12v)

/-- What the module reports about the car and the bus: poll state, on, awake, handbrake. -/
def OvmsVehicleVoltAmpera.busFields (s : OvmsVehicleVoltAmpera) : Int × Bool × Bool × Bool :=
  (s.m_poll_state, s.ms_v_env_on, s.ms_v_env_awake, s.ms_v_env_handbrake)

/-- A module with given charger current and voltage, charge-in-progress flag and SOC, and
everything else as the constructor leaves it. -/
def OvmsVehicleVoltAmpera.sample (cc cv : Int) (inprogress : Bool) (soc : Int) :
    OvmsVehicleVoltAmpera :=
  { OvmsVehicleVoltAmpera.fresh with
    ms_v_charge_current := cc
    ms_v_charge_voltage := cv
    ms_v_charge_inprogress := inprogress
    ms_v_bat_soc := soc }

/-! # Theorems -/

/-! ## MgHandler -/

theorem MgHeap.setUserData_user_data (s : MgHeap) (c : Nat) (v : Option Nat) (c' : Nat) :
    (s.setUserData c v).user_data c' = if c' = c then v else s.user_data c' := rfl

theorem MgHeap.setUserData_handlers (s : MgHeap) (c : Nat) (v : Option Nat) :
    (s.setUserData c v).handlers = s.handlers := rfl

theorem MgHeap.setHandler_handlers (s : MgHeap) (a : Nat) (o : Option MgHandler) (a' : Nat) :
    (s.setHandler a o).handlers a' = if a' = a then o else s.handlers a' := rfl

theorem MgHeap.setHandler_user_data (s : MgHeap) (a : Nat) (o : Option MgHandler) :
    (s.setHandler a o).user_data = s.user_data := rfl

/-- Destroying a live handler bound to `c` clears `c->user_data`, whatever else is on the heap. -/
theorem MgHandler.destruct_clears (s : MgHeap) (self c : Nat)
    (h : s.handlers self = some { m_nc := some c }) :
    (MgHandler.destruct s self).user_data c = none := by
  simp [MgHandler.destruct, h, MgHeap.setHandler_user_data, MgHeap.setUserData_user_data]

/-- C1: for a non-null connection `c`, constructing a handler `self` on `c` leaves
`self.m_nc = c` and `c->user_data = self`; destroying `self` right afterwards, or at any
later moment at which it is still the live object bound to `c`, leaves `c->user_data = NULL`. -/
theorem MgHandler_construct_binds_destruct_clears (s : MgHeap) (self c : Nat) :
    (MgHandler.construct s self (some c)).handlers self = some { m_nc := some c } ∧
    (MgHandler.construct s self (some c)).user_data c = some self ∧
    (MgHandler.destruct (MgHandler.construct s self (some c)) self).user_data c = none ∧
    ∀ s2 : MgHeap, s2.liveOn c self → (MgHandler.destruct s2 self).user_data c = none := by
  have h1 : (MgHandler.construct s self (some c)).handlers self = some { m_nc := some c } := by
    simp [MgHandler.construct, MgHeap.setUserData_handlers, MgHeap.setHandler_handlers]
  refine ⟨h1, ?_, MgHandler.destruct_clears _ _ _ h1, fun s2 h2 => MgHandler.destruct_clears _ _ _ h2⟩
  simp [MgHandler.construct, MgHeap.setUserData_user_data]

/-- Instance of C1 on the empty heap: handler 7 on connection 3, destroyed later from a heap
on which a second handler was built in between. -/
theorem MgHandler_construct_binds_destruct_clears_witness :
    (MgHandler.construct MgHeap.empty 7 (some 3)).handlers 7 = some { m_nc := some 3 } ∧
    (MgHandler.construct MgHeap.empty 7 (some 3)).user_data 3 = some 7 ∧
    (MgHandler.destruct (MgHandler.construct MgHeap.empty 7 (some 3)) 7).user_data 3 = none ∧
    (MgHandler.destruct
      (MgHandler.construct (MgHandler.construct MgHeap.empty 7 (some 3)) 8 (some 4)) 7).user_data 3
      = none :=
  have h := MgHandler_construct_binds_destruct_clears MgHeap.empty 7 3
  ⟨h.1, h.2.1, h.2.2.1,
    h.2.2.2 (MgHandler.construct (MgHandler.construct MgHeap.empty 7 (some 3)) 8 (some 4)) rfl⟩

theorem MgHeap.SlotSound_empty : MgHeap.empty.SlotSound := by
  intro c h hud
  simp [MgHeap.empty] at hud

theorem MgHeap.SlotComplete_empty : MgHeap.empty.SlotComplete := by
  intro c h hl
  simp [MgHeap.liveOn, MgHeap.empty] at hl

/-- One valid operation keeps the attach slots pointing at live handlers only. -/
theorem MgOp.step_SlotSound (s s1 : MgHeap) (op : MgOp) (hs : s.SlotSound)
    (hstep : op.step s = some s1) : s1.SlotSound := by
  intro c h hud
  cases op with
  | construct self nc =>
    simp only [MgOp.step] at hstep
    split at hstep
    · rename_i hfree
      simp only [Option.some.injEq] at hstep
      subst hstep
      have hnone : s.handlers self = none := by simpa using hfree
      cases nc with
      | none =>
        simp only [MgHandler.construct, MgHeap.setHandler_user_data] at hud
        have hl := hs c h hud
        have hne : h ≠ self := by
          rintro rfl
          simp [MgHeap.liveOn, hnone] at hl
        simpa [MgHeap.liveOn, MgHandler.construct, MgHeap.setHandler_handlers, hne] using hl
      | some c0 =>
        simp only [MgHandler.construct, MgHeap.setUserData_user_data,
          MgHeap.setHandler_user_data] at hud
        by_cases hc : c = c0
        · subst hc
          simp only [if_true, Option.some.injEq] at hud
          subst hud
          simp [MgHeap.liveOn, MgHandler.construct, MgHeap.setUserData_handlers,
            MgHeap.setHandler_handlers]
        · simp only [hc, if_false] at hud
          have hl := hs c h hud
          have hne : h ≠ self := by
            rintro rfl
            simp [MgHeap.liveOn, hnone] at hl
          simpa [MgHeap.liveOn, MgHandler.construct, MgHeap.setUserData_handlers,
            MgHeap.setHandler_handlers, hne] using hl
    · simp at hstep
  | destroy self =>
    simp only [MgOp.step] at hstep
    split at hstep
    · rename_i hlive
      simp only [Option.some.injEq] at hstep
      subst hstep
      obtain ⟨obj, hobj⟩ := Option.isSome_iff_exists.mp hlive
      obtain ⟨m⟩ := obj
      cases m with
      | none =>
        simp only [MgHandler.destruct, hobj, MgHeap.setHandler_user_data] at hud
        have hl := hs c h hud
        have hne : h ≠ self := by
          rintro rfl
          simp [MgHeap.liveOn, hobj] at hl
        simpa [MgHeap.liveOn, MgHandler.destruct, hobj, MgHeap.setHandler_handlers, hne] using hl
      | some c0 =>
        simp only [MgHandler.destruct, hobj, MgHeap.setHandler_user_data,
          MgHeap.setUserData_user_data] at hud
        by_cases hc : c = c0
        · simp [hc] at hud
        · simp only [hc, if_false] at hud
          have hl := hs c h hud
          have hne : h ≠ self := by
            rintro rfl
            simp only [MgHeap.liveOn, hobj, Option.some.injEq, MgHandler.mk.injEq] at hl
            exact hc hl.symm
          simpa [MgHeap.liveOn, MgHandler.destruct, hobj, MgHeap.setHandler_handlers,
            MgHeap.setUserData_handlers, hne] using hl
    · simp at hstep

/-- Every valid sequence keeps the attach slots pointing at live handlers only. -/
theorem MgHeap.run_SlotSound (ops : List MgOp) :
    ∀ s s1 : MgHeap, s.SlotSound → s.run ops = some s1 → s1.SlotSound := by
  induction ops with
  | nil =>
    intro s s1 hs hrun
    simp only [MgHeap.run, Option.some.injEq] at hrun
    exact hrun ▸ hs
  | cons op ops ih =>
    intro s s1 hs hrun
    simp only [MgHeap.run] at hrun
    cases hstep : op.step s with
    | none => simp [hstep] at hrun
    | some s2 =>
      simp only [hstep, Option.some_bind] at hrun
      exact ih s2 s1 (MgOp.step_SlotSound s s2 op hs hstep) hrun

/-- One valid operation that respects the attach slot keeps every live handler in its slot. -/
theorem MgOp.step_SlotComplete (s s1 : MgHeap) (op : MgOp) (hs : s.SlotComplete)
    (hfree : op.slotFree s = true) (hstep : op.step s = some s1) : s1.SlotComplete := by
  intro c h hl
  cases op with
  | construct self nc =>
    simp only [MgOp.step] at hstep
    split at hstep
    · simp only [Option.some.injEq] at hstep
      subst hstep
      cases nc with
      | none =>
        simp only [MgHeap.liveOn, MgHandler.construct, MgHeap.setHandler_handlers] at hl
        by_cases hne : h = self
        · simp [hne] at hl
        · simp only [hne, if_false] at hl
          simpa [MgHandler.construct, MgHeap.setHandler_user_data] using hs c h hl
      | some c0 =>
        have hud0 : s.user_data c0 = none := by simpa [MgOp.slotFree] using hfree
        simp only [MgHeap.liveOn, MgHandler.construct, MgHeap.setUserData_handlers,
          MgHeap.setHandler_handlers] at hl
        by_cases hne : h = self
        · simp only [hne, if_true, Option.some.injEq, MgHandler.mk.injEq] at hl
          simp [MgHandler.construct, MgHeap.setUserData_user_data, hl.symm, hne]
        · simp only [hne, if_false] at hl
          have hud := hs c h hl
          have hc : c ≠ c0 := by
            rintro rfl
            simp [hud0] at hud
          simpa [MgHandler.construct, MgHeap.setUserData_user_data, MgHeap.setHandler_user_data,
            hc] using hud
    · simp at hstep
  | destroy self =>
    simp only [MgOp.step] at hstep
    split at hstep
    · rename_i hlive
      simp only [Option.some.injEq] at hstep
      subst hstep
      obtain ⟨obj, hobj⟩ := Option.isSome_iff_exists.mp hlive
      obtain ⟨m⟩ := obj
      cases m with
      | none =>
        simp only [MgHeap.liveOn, MgHandler.destruct, hobj, MgHeap.setHandler_handlers] at hl
        by_cases hne : h = self
        · simp [hne] at hl
        · simp only [hne, if_false] at hl
          simpa [MgHandler.destruct, hobj, MgHeap.setHandler_user_data] using hs c h hl
      | some c0 =>
        simp only [MgHeap.liveOn, MgHandler.destruct, hobj, MgHeap.setHandler_handlers,
          MgHeap.setUserData_handlers] at hl
        by_cases hne : h = self
        · simp [hne] at hl
        · simp only [hne, if_false] at hl
          have hud := hs c h hl
          have hc : c ≠ c0 := by
            rintro rfl
            have hself := hs c self hobj
            rw [hud] at hself
            exact hne (Option.some.inj hself)
          simpa [MgHandler.destruct, hobj, MgHeap.setHandler_user_data,
            MgHeap.setUserData_user_data, hc] using hud
    · simp at hstep

/-- Every valid sequence that respects the attach slot keeps every live handler in its slot. -/
theorem MgHeap.runSlotFree_SlotComplete (ops : List MgOp) :
    ∀ s s1 : MgHeap, s.SlotComplete → s.runSlotFree ops = some s1 → s1.SlotComplete := by
  induction ops with
  | nil =>
    intro s s1 hs hrun
    simp only [MgHeap.runSlotFree, Option.some.injEq] at hrun
    exact hrun ▸ hs
  | cons op ops ih =>
    intro s s1 hs hrun
    simp only [MgHeap.runSlotFree] at hrun
    split at hrun
    · rename_i hfree
      cases hstep : op.step s with
      | none => simp [hstep] at hrun
      | some s2 =>
        simp only [hstep, Option.some_bind] at hrun
        exact ih s2 s1 (MgOp.step_SlotComplete s s2 op hs hfree hstep) hrun
    · simp at hrun

/-- C2 as stated fails: two handlers built one after the other on connection 0 are both alive
and both have `m_nc` equal to connection 0 (the constructor does not look at the slot). -/
theorem MgHandler_two_live_on_one_connection :
    ∃ s : MgHeap,
      MgHeap.empty.run [MgOp.construct 1 (some 0), MgOp.construct 2 (some 0)] = some s ∧
      s.liveOn 0 1 ∧ s.liveOn 0 2 ∧ (1 : Nat) ≠ 2 :=
  ⟨_, rfl, rfl, rfl, by decide⟩

/-- C2 amended: in every sequence of constructions and destructions in which a handler is
constructed on a connection only while that connection's `user_data` is `NULL`, at most one
live handler has `m_nc = c` at any point, and it is the one `c->user_data` refers to. -/
theorem MgHandler_at_most_one_live_when_slot_free (ops : List MgOp) (s : MgHeap) (c h1 h2 : Nat)
    (hrun : MgHeap.empty.runSlotFree ops = some s) (l1 : s.liveOn c h1) (l2 : s.liveOn c h2) :
    h1 = h2 ∧ s.user_data c = some h1 := by
  have hc := MgHeap.runSlotFree_SlotComplete ops _ s MgHeap.SlotComplete_empty hrun
  have e1 := hc c h1 l1
  have e2 := hc c h2 l2
  rw [e1] at e2
  exact ⟨Option.some.inj e2, e1⟩

/-- Instance of the amended C2: handler 1 on connection 0, destroyed, then handler 2 on it. -/
theorem MgHandler_at_most_one_live_when_slot_free_witness :
    MgHeap.empty.runSlotFree
        [MgOp.construct 1 (some 0), MgOp.destroy 1, MgOp.construct 2 (some 0)]
      = some (MgHandler.construct
          (MgHandler.destruct (MgHandler.construct MgHeap.empty 1 (some 0)) 1) 2 (some 0)) ∧
    (MgHandler.construct
      (MgHandler.destruct (MgHandler.construct MgHeap.empty 1 (some 0)) 1) 2 (some 0)).user_data 0
      = some 2 :=
  ⟨rfl, (MgHandler_at_most_one_live_when_slot_free
    [MgOp.construct 1 (some 0), MgOp.destroy 1, MgOp.construct 2 (some 0)] _ 0 2 2
    rfl rfl rfl).2⟩

/-- C3: after every sequence of constructions and destructions, a connection whose `user_data`
is not `NULL` has it referring to a live handler (constructed, not yet destroyed) whose `m_nc`
is that connection. -/
theorem MgHandler_user_data_refers_to_live_handler (ops : List MgOp) (s : MgHeap) (c h : Nat)
    (hrun : MgHeap.empty.run ops = some s) (hud : s.user_data c = some h) :
    s.liveOn c h :=
  MgHeap.run_SlotSound ops _ s MgHeap.SlotSound_empty hrun c h hud

/-- Instance of C3: two handlers on connection 0, the second one destroyed, a third built. -/
theorem MgHandler_user_data_refers_to_live_handler_witness :
    MgHeap.empty.run
        [MgOp.construct 1 (some 0), MgOp.construct 2 (some 0), MgOp.destroy 2,
          MgOp.construct 3 (some 0)]
      = some (MgHandler.construct (MgHandler.destruct (MgHandler.construct
          (MgHandler.construct MgHeap.empty 1 (some 0)) 2 (some 0)) 2) 3 (some 0)) ∧
    (MgHandler.construct (MgHandler.destruct (MgHandler.construct
      (MgHandler.construct MgHeap.empty 1 (some 0)) 2 (some 0)) 2) 3 (some 0)).liveOn 0 3 :=
  ⟨rfl, MgHandler_user_data_refers_to_live_handler
    [MgOp.construct 1 (some 0), MgOp.construct 2 (some 0), MgOp.destroy 2,
      MgOp.construct 3 (some 0)] _ 0 3 rfl rfl⟩

/-! ## HttpCommandStream -/

/-- C4: `HttpCommandStream` is not interactive: `IsInteractive()` is `false` for every
instance, and `GetCompletion(children, token)` is `NULL` for every command map and token. -/
theorem HttpCommandStream_not_interactive {CommandMap : Type} (self : HttpCommandStream)
    (children : CommandMap) (token : Option String) :
    self.IsInteractive = false ∧ self.GetCompletion children token = none :=
  ⟨rfl, rfl⟩

/-! ## Chunked senders -/

/-- The count `chunkCount len` is the ceiling of `len / XFER_CHUNK_SIZE`: the least number of
chunks of `XFER_CHUNK_SIZE` bytes that hold `len` bytes. -/
theorem chunkCount_le_iff (len m : Nat) :
    chunkCount len ≤ m ↔ len ≤ m * XFER_CHUNK_SIZE := by
  simp only [chunkCount, XFER_CHUNK_SIZE]
  omega

/-- Shape of the chunk list once enough send-ready events have been delivered. -/
theorem chunksFrom_spec (payload : List UInt8) (n : Nat) :
    ∀ sent : Nat, sent ≤ payload.length → chunkCount (payload.length - sent) ≤ n →
      (chunksFrom payload n sent).length = chunkCount (payload.length - sent) ∧
      (∀ w ∈ chunksFrom payload n sent, w.length ≤ XFER_CHUNK_SIZE) ∧
      (chunksFrom payload n sent).flatten = payload.drop sent := by
  induction n with
  | zero =>
    intro sent hle hn
    have hs : sent = payload.length := by
      simp only [chunkCount, XFER_CHUNK_SIZE] at hn
      omega
    subst hs
    simp [chunksFrom, chunkCount, XFER_CHUNK_SIZE]
  | succ n ih =>
    intro sent hle hn
    by_cases hlt : sent < payload.length
    · have hstep : chunkCount (payload.length - sent)
          = chunkCount (payload.length -
              (sent + min (payload.length - sent) XFER_CHUNK_SIZE)) + 1 := by
        simp only [chunkCount, XFER_CHUNK_SIZE]
        omega
      have hle2 : sent + min (payload.length - sent) XFER_CHUNK_SIZE ≤ payload.length := by
        omega
      obtain ⟨h1, h2, h3⟩ := ih _ hle2 (by omega)
      simp only [chunksFrom, hlt, if_true]
      refine ⟨by simp [h1, hstep], ?_, ?_⟩
      · intro w hw
        rcases List.mem_cons.mp hw with rfl | hw
        · simp only [List.length_take]
          omega
        · exact h2 w hw
      · rw [List.flatten_cons, h3, ← List.drop_drop, List.take_append_drop]
    · have hs : sent = payload.length := by omega
      subst hs
      simp [chunksFrom, chunkCount, XFER_CHUNK_SIZE]

/-- A destroyed data sender stays destroyed and writes nothing. -/
theorem HttpDataSender.sendReady_none (n : Nat) (conn : HttpConn) :
    HttpDataSender.sendReady n (none, conn) = (none, conn) := by
  cases n <;> rfl

/-- A destroyed string sender stays destroyed and writes nothing. -/
theorem HttpStringSender.sendReady_string_none (n : Nat) (conn : HttpConn) :
    HttpStringSender.sendReady n (none, conn) = (none, conn) := by
  cases n <;> rfl

/-- The writes of a data sender are the chunks of its buffer from its current offset on. -/
theorem HttpDataSender.sendReady_writes (n : Nat) :
    ∀ (h : HttpDataSender) (conn : HttpConn), h.m_size = h.m_data.length →
      (HttpDataSender.sendReady n (some h, conn)).2.writes
        = conn.writes ++ chunksFrom h.m_data n h.m_sent := by
  induction n with
  | zero => intro h conn _; simp [HttpDataSender.sendReady, chunksFrom]
  | succ n ih =>
    intro h conn hsz
    by_cases hlt : h.m_sent < h.m_size
    · have hlt2 : h.m_sent < h.m_data.length := hsz ▸ hlt
      simp only [HttpDataSender.sendReady, HttpDataSender.HandleEvent, hlt, if_true]
      rw [ih { h with m_sent := h.m_sent + min (h.m_size - h.m_sent) XFER_CHUNK_SIZE } _ hsz]
      simp [chunksFrom, hlt2, hsz]
    · have hlt2 : ¬ h.m_sent < h.m_data.length := hsz ▸ hlt
      simp [HttpDataSender.sendReady, HttpDataSender.HandleEvent, hlt,
        HttpDataSender.sendReady_none, chunksFrom, hlt2]

/-- The writes of a string sender are the chunks of its string from its current offset on. -/
theorem HttpStringSender.sendReady_string_writes (n : Nat) :
    ∀ (h : HttpStringSender) (conn : HttpConn),
      (HttpStringSender.sendReady n (some h, conn)).2.writes
        = conn.writes ++ chunksFrom h.m_msg n h.m_sent := by
  induction n with
  | zero => intro h conn; simp [HttpStringSender.sendReady, chunksFrom]
  | succ n ih =>
    intro h conn
    by_cases hlt : h.m_sent < h.m_msg.length
    · simp only [HttpStringSender.sendReady, HttpStringSender.HandleEvent, hlt, if_true]
      rw [ih]
      simp [chunksFrom, hlt]
    · simp [HttpStringSender.sendReady, HttpStringSender.HandleEvent, hlt,
        HttpStringSender.sendReady_string_none, chunksFrom]

/-- A data sender is destroyed by the first send-ready event after its last chunk. -/
theorem HttpDataSender.sendReady_done (n : Nat) :
    ∀ (h : HttpDataSender) (conn : HttpConn), h.m_sent ≤ h.m_size →
      chunkCount (h.m_size - h.m_sent) < n →
      (HttpDataSender.sendReady n (some h, conn)).1 = none := by
  induction n with
  | zero => intro h conn _ hn; omega
  | succ n ih =>
    intro h conn hle hn
    by_cases hlt : h.m_sent < h.m_size
    · simp only [HttpDataSender.sendReady, HttpDataSender.HandleEvent, hlt, if_true]
      apply ih
      · simp only; omega
      · simp only [chunkCount, XFER_CHUNK_SIZE] at hn ⊢
        omega
    · simp [HttpDataSender.sendReady, HttpDataSender.HandleEvent, hlt,
        HttpDataSender.sendReady_none]

/-- A string sender is destroyed by the first send-ready event after its last chunk. -/
theorem HttpStringSender.sendReady_string_done (n : Nat) :
    ∀ (h : HttpStringSender) (conn : HttpConn), h.m_sent ≤ h.m_msg.length →
      chunkCount (h.m_msg.length - h.m_sent) < n →
      (HttpStringSender.sendReady n (some h, conn)).1 = none := by
  induction n with
  | zero => intro h conn _ hn; omega
  | succ n ih =>
    intro h conn hle hn
    by_cases hlt : h.m_sent < h.m_msg.length
    · simp only [HttpStringSender.sendReady, HttpStringSender.HandleEvent, hlt, if_true]
      apply ih
      · simp only; omega
      · simp only [chunkCount, XFER_CHUNK_SIZE] at hn ⊢
        omega
    · simp [HttpStringSender.sendReady, HttpStringSender.HandleEvent, hlt,
        HttpStringSender.sendReady_string_none]

/-- C5: a payload of length `L` sent through either chunked sender (`HttpDataSender` over a
buffer, `HttpStringSender` over an owned string) with chunk size `XFER_CHUNK_SIZE = 1024`:
once the connection has delivered `ceil(L/1024)` send-ready events, and however many more it
delivers, the number of chunk writes is `ceil(L/1024)`, no chunk is longer than 1024 bytes and
the chunks concatenated are the payload; the next send-ready event destroys the handler.
`chunkCount L` is `ceil(L/1024)`: it is the least `m` with `L ≤ m * 1024`. -/
theorem chunked_senders_count_bound_roundtrip (nc : Option Nat) (payload : List UInt8)
    (keepalive : Bool) (k : Nat) :
    XFER_CHUNK_SIZE = 1024 ∧
    (∀ m, chunkCount payload.length ≤ m ↔ payload.length ≤ m * XFER_CHUNK_SIZE) ∧
    ((HttpDataSender.transfer nc payload keepalive
        (chunkCount payload.length + k)).2.writes.length = chunkCount payload.length ∧
      (∀ w ∈ (HttpDataSender.transfer nc payload keepalive
        (chunkCount payload.length + k)).2.writes, w.length ≤ XFER_CHUNK_SIZE) ∧
      (HttpDataSender.transfer nc payload keepalive
        (chunkCount payload.length + k)).2.writes.flatten = payload ∧
      (HttpDataSender.transfer nc payload keepalive
        (chunkCount payload.length + 1 + k)).1 = none) ∧
    ((HttpStringSender.transfer nc payload keepalive
        (chunkCount payload.length + k)).2.writes.length = chunkCount payload.length ∧
      (∀ w ∈ (HttpStringSender.transfer nc payload keepalive
        (chunkCount payload.length + k)).2.writes, w.length ≤ XFER_CHUNK_SIZE) ∧
      (HttpStringSender.transfer nc payload keepalive
        (chunkCount payload.length + k)).2.writes.flatten = payload ∧
      (HttpStringSender.transfer nc payload keepalive
        (chunkCount payload.length + 1 + k)).1 = none) := by
  obtain ⟨h1, h2, h3⟩ := chunksFrom_spec payload (chunkCount payload.length + k) 0
    (Nat.zero_le _) (by simp)
  simp only [Nat.sub_zero, List.drop_zero] at h1 h3
  have hd := HttpDataSender.sendReady_writes (chunkCount payload.length + k)
    (HttpDataSender.create nc payload keepalive) HttpConn.fresh rfl
  have hs := HttpStringSender.sendReady_string_writes (chunkCount payload.length + k)
    (HttpStringSender.create nc payload keepalive) HttpConn.fresh
  simp only [HttpDataSender.create, HttpStringSender.create, HttpConn.fresh,
    List.nil_append] at hd hs
  refine ⟨rfl, fun m => chunkCount_le_iff _ m, ⟨?_, ?_, ?_, ?_⟩, ⟨?_, ?_, ?_, ?_⟩⟩
  · simpa [HttpDataSender.transfer, HttpDataSender.create, HttpConn.fresh, hd] using h1
  · simpa [HttpDataSender.transfer, HttpDataSender.create, HttpConn.fresh, hd] using h2
  · simpa [HttpDataSender.transfer, HttpDataSender.create, HttpConn.fresh, hd] using h3
  · apply HttpDataSender.sendReady_done
    · simp [HttpDataSender.create]
    · simp only [HttpDataSender.create, Nat.sub_zero]
      omega
  · simpa [HttpStringSender.transfer, HttpStringSender.create, HttpConn.fresh, hs] using h1
  · simpa [HttpStringSender.transfer, HttpStringSender.create, HttpConn.fresh, hs] using h2
  · simpa [HttpStringSender.transfer, HttpStringSender.create, HttpConn.fresh, hs] using h3
  · apply HttpStringSender.sendReady_string_done
    · simp [HttpStringSender.create]
    · simp only [HttpStringSender.create, Nat.sub_zero]
      omega

/-- Instance of C5: the three bytes 1, 2, 3 go out as one chunk, and the empty payload as no
chunk at all; the handler is gone after one more send-ready event. -/
theorem chunked_senders_count_bound_roundtrip_witness :
    (HttpDataSender.transfer (some 0) [1, 2, 3] true 1).2.writes = [[1, 2, 3]] ∧
    (HttpDataSender.transfer (some 0) [1, 2, 3] true 2).1 = none ∧
    (HttpStringSender.transfer (some 0) [] false 1) = (none, { writes := [], closing := true }) ∧
    (HttpStringSender.transfer (some 0) [1, 2, 3] true
      (chunkCount [1, 2, 3].length + 0)).2.writes.flatten = [1, 2, 3] :=
  ⟨by decide, by decide, by decide,
    (chunked_senders_count_bound_roundtrip (some 0) [1, 2, 3] true 0).2.2.2.2.2.1⟩

/-! ## Session table -/

/-- No call changes the number of slots of the table. -/
theorem SessionOp.apply_length (t : SessionTable) (op : SessionOp) :
    (op.apply t).length = t.length := by
  cases op with
  | create now rnd =>
    simp only [SessionOp.apply, OvmsWebServer.CreateSession]
    cases t.findReusable now <;> simp
  | destroy i => simp [SessionOp.apply, OvmsWebServer.DestroySession]
  | check now => simp [SessionOp.apply, OvmsWebServer.CheckSessions]

/-- No sequence of calls changes the number of slots of the table. -/
theorem SessionTable.run_length (ops : List SessionOp) :
    ∀ t : SessionTable, (t.run ops).length = t.length := by
  induction ops with
  | nil => intro t; rfl
  | cons op ops ih =>
    intro t
    simp only [SessionTable.run, List.foldl_cons] at ih ⊢
    rw [ih, SessionOp.apply_length]

/-- The scan finds no slot when every slot holds an unexpired session. -/
theorem SessionTable.findReusable_none (now : Int) (t : SessionTable)
    (hfull : ∀ s ∈ t, s.id ≠ 0 ∧ s.expired now = false) : t.findReusable now = none := by
  induction t with
  | nil => rfl
  | cons s rest ih =>
    have hs := hfull s (List.mem_cons_self _ _)
    have hr : s.reusable now = false := by
      simp [user_session.reusable, hs.1, hs.2]
    simp [SessionTable.findReusable, hr, ih fun x hx => hfull x (List.mem_cons_of_mem _ hx)]

/-- C6: after every sequence of `CreateSession`, `DestroySession` and `CheckSessions` calls the
table still has its `NUM_SESSIONS = 5` slots, so at most 5 of them have a non-zero id; and a
`CreateSession` call made while every slot holds an unexpired session fails (returns no
session) and leaves the table unchanged. -/
theorem session_table_never_exceeds_capacity (ops : List SessionOp) (now : Int) (rnd : Nat) :
    NUM_SESSIONS = 5 ∧
    (SessionTable.init.run ops).length = NUM_SESSIONS ∧
    (SessionTable.init.run ops).used ≤ NUM_SESSIONS ∧
    ((∀ s ∈ SessionTable.init.run ops, s.id ≠ 0 ∧ s.expired now = false) →
      OvmsWebServer.CreateSession (SessionTable.init.run ops) now rnd
        = (none, SessionTable.init.run ops)) := by
  have hlen : (SessionTable.init.run ops).length = NUM_SESSIONS := by
    rw [SessionTable.run_length]
    simp [SessionTable.init]
  refine ⟨rfl, hlen, ?_, ?_⟩
  · rw [← hlen]
    exact List.length_filter_le _ _
  · intro hfull
    simp [OvmsWebServer.CreateSession, SessionTable.findReusable_none now _ hfull]

/-- Instance of C6: five sessions created at times 0..4; a sixth creation at time 10 fails and
leaves the table as it was. -/
theorem session_table_never_exceeds_capacity_witness :
    (∀ s ∈ SessionTable.init.run [SessionOp.create 0 11, SessionOp.create 1 12,
        SessionOp.create 2 13, SessionOp.create 3 14, SessionOp.create 4 15],
      s.id ≠ 0 ∧ s.expired 10 = false) ∧
    OvmsWebServer.CreateSession (SessionTable.init.run [SessionOp.create 0 11,
        SessionOp.create 1 12, SessionOp.create 2 13, SessionOp.create 3 14,
        SessionOp.create 4 15]) 10 16
      = (none, SessionTable.init.run [SessionOp.create 0 11, SessionOp.create 1 12,
        SessionOp.create 2 13, SessionOp.create 3 14, SessionOp.create 4 15]) :=
  ⟨by decide, (session_table_never_exceeds_capacity [SessionOp.create 0 11,
    SessionOp.create 1 12, SessionOp.create 2 13, SessionOp.create 3 14,
    SessionOp.create 4 15] 10 16).2.2.2 (by decide)⟩

/-- On a full queue `AddTxJob` fails, adds exactly 1 to the overflow counter and changes
nothing else: not the queue, not the job in flight, not the connection. -/
theorem WebSocketHandler.AddTxJob_full (enc : WebSocketTxJob → List UInt8)
    (h : WebSocketHandler) (conn : WsConn) (job : WebSocketTxJob) (init_tx : Bool)
    (hfull : h.queue_capacity ≤ h.m_jobqueue.length) :
    WebSocketHandler.AddTxJob enc h conn job init_tx
      = (false, { h with m_jobqueue_overflow := h.m_jobqueue_overflow + 1 }, conn) := by
  simp [WebSocketHandler.AddTxJob, Nat.not_lt.mpr hfull]

/-- With a job in flight, `AddTxJob` on a queue with room only appends the job. -/
theorem WebSocketHandler.AddTxJob_room_busy (enc : WebSocketTxJob → List UInt8)
    (h : WebSocketHandler) (conn : WsConn) (job : WebSocketTxJob) (init_tx : Bool)
    (hroom : h.m_jobqueue.length < h.queue_capacity)
    (hbusy : h.m_job.type ≠ .WSTX_None) :
    WebSocketHandler.AddTxJob enc h conn job init_tx
      = (true, { h with m_jobqueue := h.m_jobqueue ++ [job] }, conn) := by
  simp [WebSocketHandler.AddTxJob, hroom, hbusy]

/-- A stalled handler (a job in flight, no acknowledgment, no poll) that receives `AddTxJob`
calls for `job` fills its queue up to the capacity and counts every further call as an
overflow; the job in flight and the connection stay as they are. -/
theorem WebSocketHandler.run_adds_stalled (enc : WebSocketTxJob → List UInt8)
    (job : WebSocketTxJob) (flags : List Bool) :
    ∀ (h : WebSocketHandler) (conn : WsConn), h.m_job.type ≠ .WSTX_None →
      (WebSocketHandler.run enc (h, conn) (flags.map (WsEvent.addTxJob job))).1.m_jobqueue
        = h.m_jobqueue ++
          List.replicate (min flags.length (h.queue_capacity - h.m_jobqueue.length)) job ∧
      (WebSocketHandler.run enc (h, conn)
          (flags.map (WsEvent.addTxJob job))).1.m_jobqueue_overflow
        = h.m_jobqueue_overflow +
          ((flags.length - (h.queue_capacity - h.m_jobqueue.length) : Nat) : Int) ∧
      (WebSocketHandler.run enc (h, conn) (flags.map (WsEvent.addTxJob job))).1.m_job
        = h.m_job ∧
      (WebSocketHandler.run enc (h, conn) (flags.map (WsEvent.addTxJob job))).2 = conn := by
  induction flags with
  | nil => intro h conn _; simp [WebSocketHandler.run]
  | cons b flags ih =>
    intro h conn hbusy
    by_cases hroom : h.m_jobqueue.length < h.queue_capacity
    · have hstep : WsEvent.apply enc (h, conn) (WsEvent.addTxJob job b)
          = ({ h with m_jobqueue := h.m_jobqueue ++ [job] }, conn) := by
        simp [WsEvent.apply, WebSocketHandler.AddTxJob_room_busy enc h conn job b hroom hbusy]
      obtain ⟨h1, h2, h3, h4⟩ := ih { h with m_jobqueue := h.m_jobqueue ++ [job] } conn hbusy
      simp only [WebSocketHandler.run, List.map_cons, List.foldl_cons, hstep] at h1 h2 h3 h4 ⊢
      refine ⟨?_, ?_, h3, h4⟩
      · rw [h1]
        show h.m_jobqueue ++ [job] ++ List.replicate
            (min flags.length (h.queue_capacity - (h.m_jobqueue ++ [job]).length)) job
          = h.m_jobqueue ++ List.replicate
            (min (flags.length + 1) (h.queue_capacity - h.m_jobqueue.length)) job
        have e : min (flags.length + 1) (h.queue_capacity - h.m_jobqueue.length)
            = min flags.length (h.queue_capacity - (h.m_jobqueue ++ [job]).length) + 1 := by
          simp only [List.length_append, List.length_singleton]
          omega
        rw [e, List.replicate_succ]
        simp
      · rw [h2]
        show h.m_jobqueue_overflow
            + ((flags.length - (h.queue_capacity - (h.m_jobqueue ++ [job]).length) : Nat) : Int)
          = h.m_jobqueue_overflow
            + ((flags.length + 1 - (h.queue_capacity - h.m_jobqueue.length) : Nat) : Int)
        have e : flags.length + 1 - (h.queue_capacity - h.m_jobqueue.length)
            = flags.length - (h.queue_capacity - (h.m_jobqueue ++ [job]).length) := by
          simp only [List.length_append, List.length_singleton]
          omega
        rw [e]
    · have hfull : h.queue_capacity ≤ h.m_jobqueue.length := Nat.le_of_not_lt hroom
      have hstep : WsEvent.apply enc (h, conn) (WsEvent.addTxJob job b)
          = ({ h with m_jobqueue_overflow := h.m_jobqueue_overflow + 1 }, conn) := by
        simp [WsEvent.apply, WebSocketHandler.AddTxJob_full enc h conn job b hfull]
      obtain ⟨h1, h2, h3, h4⟩ :=
        ih { h with m_jobqueue_overflow := h.m_jobqueue_overflow + 1 } conn hbusy
      simp only [WebSocketHandler.run, List.map_cons, List.foldl_cons, hstep] at h1 h2 h3 h4 ⊢
      refine ⟨?_, ?_, h3, h4⟩
      · rw [h1]
        show h.m_jobqueue ++ List.replicate
            (min flags.length (h.queue_capacity - h.m_jobqueue.length)) job
          = h.m_jobqueue ++ List.replicate
            (min (flags.length + 1) (h.queue_capacity - h.m_jobqueue.length)) job
        simp [Nat.sub_eq_zero_of_le hfull]
      · rw [h2]
        show h.m_jobqueue_overflow + 1
            + ((flags.length - (h.queue_capacity - h.m_jobqueue.length) : Nat) : Int)
          = h.m_jobqueue_overflow
            + ((flags.length + 1 - (h.queue_capacity - h.m_jobqueue.length) : Nat) : Int)
        simp only [Nat.sub_eq_zero_of_le hfull, Nat.sub_zero]
        push_cast
        omega

/-- A handler created with room for at least one job has its `MetricsAll` job in flight, an
empty queue and no overflow, and has begun to send that job and nothing else. -/
theorem WebSocketHandler.create_state (enc : WebSocketTxJob → List UInt8) (nc : Option Nat)
    (modifier capacity : Nat) (hcap : 0 < capacity) :
    (WebSocketHandler.create enc nc modifier capacity).1.m_job = WebSocketTxJob.metricsAll ∧
    (WebSocketHandler.create enc nc modifier capacity).1.m_jobqueue = [] ∧
    (WebSocketHandler.create enc nc modifier capacity).1.m_jobqueue_overflow = 0 ∧
    (WebSocketHandler.create enc nc modifier capacity).1.queue_capacity = capacity ∧
    (WebSocketHandler.create enc nc modifier capacity).2.started
      = [WebSocketTxJob.metricsAll] ∧
    (WebSocketHandler.create enc nc modifier capacity).2.completed = [] := by
  simp [WebSocketHandler.create, WebSocketHandler.AddTxJob, WebSocketHandler.blank, hcap,
    WebSocketTxJob.noJob, WebSocketHandler.ProcessTxJob, WebSocketHandler.NextTx,
    WebSocketHandler.GetNextTxJob, WebSocketHandler.InitTx, WsConn.fresh]

theorem WsTrans.refl (st : WebSocketHandler × WsConn) : WsTrans 0 st st :=
  ⟨[], by simp, by simp, le_refl _, by simp⟩

theorem WsTrans.trans {a b : Nat} {st st1 st2 : WebSocketHandler × WsConn}
    (h1 : WsTrans a st st1) (h2 : WsTrans b st1 st2) : WsTrans (a + b) st st2 := by
  obtain ⟨l1, e1, c1, o1, d1⟩ := h1
  obtain ⟨l2, e2, c2, o2, d2⟩ := h2
  refine ⟨l1 ++ l2, by rw [e2, e1, List.append_assoc], ?_, le_trans o1 o2, ?_⟩
  · simp only [List.length_append]
    push_cast
    omega
  · simp only [List.length_append]
    omega

/-- Taking the next job moves at most one job from the queue to the jobs begun. -/
theorem WebSocketHandler.NextTx_trans (enc : WebSocketTxJob → List UInt8)
    (h : WebSocketHandler) (conn : WsConn) :
    ∃ l : List WebSocketTxJob,
      (WebSocketHandler.NextTx enc h conn).2.started = conn.started ++ l ∧
      l.length + (WebSocketHandler.NextTx enc h conn).1.m_jobqueue.length
        = h.m_jobqueue.length ∧
      (WebSocketHandler.NextTx enc h conn).1.m_jobqueue_overflow = h.m_jobqueue_overflow ∧
      (WebSocketHandler.NextTx enc h conn).2.completed = conn.completed ∧
      (WebSocketHandler.NextTx enc h conn).1.m_job.inFlight ≤ l.length := by
  cases hq : h.m_jobqueue with
  | nil =>
    exact ⟨[], by simp [WebSocketHandler.NextTx, WebSocketHandler.GetNextTxJob, hq,
      WebSocketTxJob.inFlight, WebSocketTxJob.noJob]⟩
  | cons job rest =>
    refine ⟨[job], ?_⟩
    simp only [WebSocketHandler.NextTx, WebSocketHandler.GetNextTxJob, hq,
      WebSocketHandler.InitTx, WebSocketTxJob.inFlight, List.length_singleton,
      List.length_cons]
    refine ⟨trivial, by simp; omega, trivial, trivial, ?_⟩
    split <;> omega

theorem WebSocketHandler.ContinueTx_trans (enc : WebSocketTxJob → List UInt8)
    (h : WebSocketHandler) (conn : WsConn) (acked : Nat) :
    WsTrans 0 (h, conn) (WebSocketHandler.ContinueTx enc h conn acked) := by
  unfold WebSocketHandler.ContinueTx
  split
  · exact WsTrans.refl _
  · rename_i hbusy
    simp only
    split
    · split
      · exact ⟨[], by simp, by simp, le_refl _, by simp⟩
      · obtain ⟨l, e1, e2, e3, e4, e5⟩ := WebSocketHandler.NextTx_trans enc
          { h with m_ack := h.m_ack + (acked : Int) }
          { conn with completed := conn.completed ++ [h.m_job] }
        refine ⟨l, e1, ?_, le_of_eq e3.symm, ?_⟩
        · rw [e3]
          simp only at e2 ⊢
          push_cast
          omega
        · rw [e4]
          simp only [List.length_append, List.length_singleton, WebSocketTxJob.inFlight,
            hbusy, if_false] at e5 ⊢
          omega
    · exact ⟨[], by simp, by simp, le_refl _, by simp⟩

theorem WebSocketHandler.ProcessTxJob_trans (enc : WebSocketTxJob → List UInt8)
    (h : WebSocketHandler) (conn : WsConn) :
    WsTrans 0 (h, conn) (WebSocketHandler.ProcessTxJob enc h conn) := by
  unfold WebSocketHandler.ProcessTxJob
  split
  · rename_i hidle
    obtain ⟨l, e1, e2, e3, e4, e5⟩ := WebSocketHandler.NextTx_trans enc h conn
    refine ⟨l, e1, ?_, le_of_eq e3.symm, ?_⟩
    · rw [e3]
      simp only at e2 ⊢
      push_cast
      omega
    · rw [e4]
      simp only [WebSocketTxJob.inFlight, hidle, if_true] at e5 ⊢
      omega
  · exact WebSocketHandler.ContinueTx_trans enc h conn 0

theorem WebSocketHandler.AddTxJob_trans (enc : WebSocketTxJob → List UInt8)
    (h : WebSocketHandler) (conn : WsConn) (job : WebSocketTxJob) (init_tx : Bool) :
    WsTrans 1 (h, conn) (WebSocketHandler.AddTxJob enc h conn job init_tx).2 := by
  unfold WebSocketHandler.AddTxJob
  split
  · simp only
    split
    · have hp := WebSocketHandler.ProcessTxJob_trans enc
        { h with m_jobqueue := h.m_jobqueue ++ [job] } conn
      have h0 : WsTrans 1 (h, conn) ({ h with m_jobqueue := h.m_jobqueue ++ [job] }, conn) :=
        ⟨[], by simp, by simp; omega, le_refl _, by simp⟩
      exact WsTrans.trans h0 hp
    · exact ⟨[], by simp, by simp; omega, le_refl _, by simp⟩
  · exact ⟨[], by simp, by simp; omega, by simp, by simp⟩

theorem WsEvent.apply_trans (enc : WebSocketTxJob → List UInt8)
    (st : WebSocketHandler × WsConn) (e : WsEvent) :
    WsTrans (WsEvent.attempts [e]) st (WsEvent.apply enc st e) := by
  cases e with
  | addTxJob job init_tx => exact WebSocketHandler.AddTxJob_trans enc st.1 st.2 job init_tx
  | ack n => exact WebSocketHandler.ContinueTx_trans enc st.1 st.2 n
  | poll => exact WebSocketHandler.ProcessTxJob_trans enc st.1 st.2

theorem WsEvent.attempts_cons (e : WsEvent) (evs : List WsEvent) :
    WsEvent.attempts (e :: evs) = WsEvent.attempts [e] + WsEvent.attempts evs := by
  cases e <;> simp [WsEvent.attempts, Nat.add_comm]

theorem WebSocketHandler.run_trans (enc : WebSocketTxJob → List UInt8) (evs : List WsEvent) :
    ∀ st : WebSocketHandler × WsConn,
      WsTrans (WsEvent.attempts evs) st (WebSocketHandler.run enc st evs) := by
  induction evs with
  | nil => intro st; exact WsTrans.refl st
  | cons e evs ih =>
    intro st
    rw [WsEvent.attempts_cons]
    exact WsTrans.trans (WsEvent.apply_trans enc st e) (ih (WsEvent.apply enc st e))

/-- C8: the overflow scenario. A handler created with a queue of capacity 8 has its `MetricsAll`
job in flight; it never drains (no acknowledgment, no poll). After 50 calls
`AddTxJob(MetricsUpdate)`, with any `init_tx` flags, the queue holds 8 updates and the overflow
counter `m_jobqueue_overflow` is 42. Every call that finds the queue full fails, adds exactly
1 to the counter and leaves the queue and everything else unchanged. -/
theorem overflow_scenario_fifty_updates (enc : WebSocketTxJob → List UInt8) (nc : Option Nat)
    (modifier : Nat) (flags : List Bool) (hlen : flags.length = 50) :
    (WebSocketHandler.run enc (WebSocketHandler.create enc nc modifier 8)
      (flags.map (WsEvent.addTxJob WebSocketTxJob.metricsUpdate))).1.m_jobqueue_overflow = 42 ∧
    (WebSocketHandler.run enc (WebSocketHandler.create enc nc modifier 8)
      (flags.map (WsEvent.addTxJob WebSocketTxJob.metricsUpdate))).1.m_jobqueue
        = List.replicate 8 WebSocketTxJob.metricsUpdate ∧
    (∀ (h : WebSocketHandler) (conn : WsConn) (job : WebSocketTxJob) (init_tx : Bool),
      h.queue_capacity ≤ h.m_jobqueue.length →
      WebSocketHandler.AddTxJob enc h conn job init_tx
        = (false, { h with m_jobqueue_overflow := h.m_jobqueue_overflow + 1 }, conn)) := by
  obtain ⟨c1, c2, c3, c4, _, _⟩ := WebSocketHandler.create_state enc nc modifier 8 (by decide)
  have hbusy : (WebSocketHandler.create enc nc modifier 8).1.m_job.type ≠ .WSTX_None := by
    rw [c1]
    decide
  obtain ⟨r1, r2, _, _⟩ := WebSocketHandler.run_adds_stalled enc WebSocketTxJob.metricsUpdate
    flags (WebSocketHandler.create enc nc modifier 8).1
    (WebSocketHandler.create enc nc modifier 8).2 hbusy
  refine ⟨?_, ?_, fun h conn job init_tx hfull =>
    WebSocketHandler.AddTxJob_full enc h conn job init_tx hfull⟩
  · rw [r2, c3, c4, c2, hlen]
    rfl
  · rw [r1, c4, c2, hlen]
    rfl

/-- Instance of C8 with all calls using the default `init_tx = true`. -/
theorem overflow_scenario_fifty_updates_witness :
    (WebSocketHandler.run (fun _ => [0]) (WebSocketHandler.create (fun _ => [0]) (some 0) 0 8)
      ((List.replicate 50 true).map
        (WsEvent.addTxJob WebSocketTxJob.metricsUpdate))).1.m_jobqueue_overflow = 42 :=
  (overflow_scenario_fifty_updates (fun _ => [0]) (some 0) 0 (List.replicate 50 true)
    (by decide)).1

/-- C9 as stated fails: on a handler created with a queue of capacity 8 whose transport has
not acknowledged anything, after 2 calls `AddTxJob(MetricsUpdate)` no call has overflowed and
one job, the `MetricsAll` of the creation, has been transmitted, so overflow count +
transmitted count is 1, less than the 2 attempts: the 2 queued jobs are neither overflows nor
transmitted. -/
theorem accounting_law_fails_while_jobs_wait :
    (WebSocketHandler.run (fun _ => [0]) (WebSocketHandler.create (fun _ => [0]) (some 0) 0 8)
      [WsEvent.addTxJob WebSocketTxJob.metricsUpdate true,
        WsEvent.addTxJob WebSocketTxJob.metricsUpdate true]).1.m_jobqueue_overflow = 0 ∧
    (WebSocketHandler.run (fun _ => [0]) (WebSocketHandler.create (fun _ => [0]) (some 0) 0 8)
      [WsEvent.addTxJob WebSocketTxJob.metricsUpdate true,
        WsEvent.addTxJob WebSocketTxJob.metricsUpdate true]).2.started
      = [WebSocketTxJob.metricsAll] ∧
    (WebSocketHandler.run (fun _ => [0]) (WebSocketHandler.create (fun _ => [0]) (some 0) 0 8)
      [WsEvent.addTxJob WebSocketTxJob.metricsUpdate true,
        WsEvent.addTxJob WebSocketTxJob.metricsUpdate true]).1.m_jobqueue
      = [WebSocketTxJob.metricsUpdate, WebSocketTxJob.metricsUpdate] ∧
    WsEvent.attempts [WsEvent.addTxJob WebSocketTxJob.metricsUpdate true,
      WsEvent.addTxJob WebSocketTxJob.metricsUpdate true] = 2 ∧
    ¬ ((WebSocketHandler.run (fun _ => [0])
        (WebSocketHandler.create (fun _ => [0]) (some 0) 0 8)
        [WsEvent.addTxJob WebSocketTxJob.metricsUpdate true,
          WsEvent.addTxJob WebSocketTxJob.metricsUpdate true]).1.m_jobqueue_overflow
      + ((WebSocketHandler.run (fun _ => [0])
        (WebSocketHandler.create (fun _ => [0]) (some 0) 0 8)
        [WsEvent.addTxJob WebSocketTxJob.metricsUpdate true,
          WsEvent.addTxJob WebSocketTxJob.metricsUpdate true]).2.started.length : Int)
      ≥ (WsEvent.attempts [WsEvent.addTxJob WebSocketTxJob.metricsUpdate true,
        WsEvent.addTxJob WebSocketTxJob.metricsUpdate true] : Int)) := by
  decide

/-- C9 amended: for every sequence of `AddTxJob` calls, acknowledgments and polls on a created
handler, counting the enqueue of the creation as an attempt: the jobs completed are at most
the jobs whose transmission has begun, these are at most the enqueue attempts, and
overflow count + jobs begun + jobs still queued = attempts. Hence overflow + transmitted is at
least the attempts exactly when no job is waiting in the queue. -/
theorem push_actor_accounting (enc : WebSocketTxJob → List UInt8) (nc : Option Nat)
    (modifier capacity : Nat) (evs : List WsEvent) :
    (WebSocketHandler.run enc (WebSocketHandler.create enc nc modifier capacity)
      evs).2.completed.length
      ≤ (WebSocketHandler.run enc (WebSocketHandler.create enc nc modifier capacity)
        evs).2.started.length ∧
    (WebSocketHandler.run enc (WebSocketHandler.create enc nc modifier capacity)
      evs).2.started.length ≤ WsEvent.attempts evs + 1 ∧
    (WebSocketHandler.run enc (WebSocketHandler.create enc nc modifier capacity)
      evs).1.m_jobqueue_overflow
      + ((WebSocketHandler.run enc (WebSocketHandler.create enc nc modifier capacity)
        evs).2.started.length : Int)
      + ((WebSocketHandler.run enc (WebSocketHandler.create enc nc modifier capacity)
        evs).1.m_jobqueue.length : Int)
      = (WsEvent.attempts evs : Int) + 1 ∧
    0 ≤ (WebSocketHandler.run enc (WebSocketHandler.create enc nc modifier capacity)
      evs).1.m_jobqueue_overflow := by
  have hc : WsTrans 1 (WebSocketHandler.blank nc modifier capacity, WsConn.fresh)
      (WebSocketHandler.create enc nc modifier capacity) :=
    WebSocketHandler.AddTxJob_trans enc _ _ _ _
  obtain ⟨l, e1, e2, e3, e4⟩ := WsTrans.trans hc
    (WebSocketHandler.run_trans enc evs (WebSocketHandler.create enc nc modifier capacity))
  simp only [WebSocketHandler.blank, WsConn.fresh, List.nil_append, List.length_nil,
    WebSocketTxJob.inFlight, WebSocketTxJob.noJob, if_true] at e1 e2 e3 e4
  rw [e1]
  refine ⟨by omega, ?_, ?_, e3⟩
  · have : (l.length : Int) ≤ (WsEvent.attempts evs : Int) + 1 := by
      push_cast at e2
      omega
    omega
  · push_cast at e2
    omega

/-- A handler whose queue has no room at all never begins a job: every enqueue fails. -/
theorem WsEvent.apply_no_room (enc : WebSocketTxJob → List UInt8)
    (st : WebSocketHandler × WsConn) (e : WsEvent)
    (h : st.1.queue_capacity = 0 ∧ st.1.m_jobqueue = [] ∧ st.1.m_job.type = .WSTX_None ∧
      st.2.started = []) :
    (WsEvent.apply enc st e).1.queue_capacity = 0 ∧ (WsEvent.apply enc st e).1.m_jobqueue = [] ∧
    (WsEvent.apply enc st e).1.m_job.type = .WSTX_None ∧
    (WsEvent.apply enc st e).2.started = [] := by
  obtain ⟨h1, h2, h3, h4⟩ := h
  cases e with
  | addTxJob job init_tx =>
    simp [WsEvent.apply, WebSocketHandler.AddTxJob, h1, h2, h3, h4]
  | ack n =>
    simp [WsEvent.apply, WebSocketHandler.ContinueTx, h1, h2, h3, h4]
  | poll =>
    simp [WsEvent.apply, WebSocketHandler.ProcessTxJob, WebSocketHandler.NextTx,
      WebSocketHandler.GetNextTxJob, WebSocketTxJob.noJob, h1, h2, h3, h4]

/-- A handler whose queue has no room at all never begins a job, whatever the events. -/
theorem WebSocketHandler.run_no_room (enc : WebSocketTxJob → List UInt8) (evs : List WsEvent) :
    ∀ st : WebSocketHandler × WsConn,
      (st.1.queue_capacity = 0 ∧ st.1.m_jobqueue = [] ∧ st.1.m_job.type = .WSTX_None ∧
        st.2.started = []) →
      (WebSocketHandler.run enc st evs).2.started = [] := by
  induction evs with
  | nil => intro st h; exact h.2.2.2
  | cons e evs ih =>
    intro st h
    exact ih (WsEvent.apply enc st e) (WsEvent.apply_no_room enc st e h)

/-- C10: a newly created handler does its full metrics update first: after every sequence of
`AddTxJob` calls, acknowledgments and polls that follows the creation, the first job the
handler has taken from its queue and begun to transmit, if there is one, has type
`WSTX_MetricsAll`, so no `MetricsUpdate`, `Event` or `Config` job is transmitted before a full
snapshot; and when the queue was created with room for at least one job there is such a first
job: the `MetricsAll` job of the creation. -/
theorem first_transmitted_job_is_metrics_all (enc : WebSocketTxJob → List UInt8)
    (nc : Option Nat) (modifier capacity : Nat) (evs : List WsEvent) :
    (∀ job, (WebSocketHandler.run enc (WebSocketHandler.create enc nc modifier capacity)
        evs).2.started.head? = some job → job.type = WebSocketTxJobType.WSTX_MetricsAll) ∧
    (0 < capacity → ∃ later : List WebSocketTxJob,
      (WebSocketHandler.run enc (WebSocketHandler.create enc nc modifier capacity)
        evs).2.started = WebSocketTxJob.metricsAll :: later) := by
  have hpos : 0 < capacity → ∃ later : List WebSocketTxJob,
      (WebSocketHandler.run enc (WebSocketHandler.create enc nc modifier capacity)
        evs).2.started = WebSocketTxJob.metricsAll :: later := by
    intro hcap
    obtain ⟨_, _, _, _, c5, _⟩ := WebSocketHandler.create_state enc nc modifier capacity hcap
    obtain ⟨l, e1, _⟩ :=
      WebSocketHandler.run_trans enc evs (WebSocketHandler.create enc nc modifier capacity)
    exact ⟨l, by rw [e1, c5]; rfl⟩
  refine ⟨?_, hpos⟩
  intro job hjob
  rcases Nat.eq_zero_or_pos capacity with hzero | hcap
  · subst hzero
    have hnone := WebSocketHandler.run_no_room enc evs
      (WebSocketHandler.create enc nc modifier 0)
      (by simp [WebSocketHandler.create, WebSocketHandler.AddTxJob, WebSocketHandler.blank,
        WebSocketTxJob.noJob, WsConn.fresh])
    rw [hnone] at hjob
    simp at hjob
  · obtain ⟨later, hl⟩ := hpos hcap
    rw [hl] at hjob
    simp only [List.head?_cons, Option.some.injEq] at hjob
    rw [← hjob]
    rfl

/-- Instance of C10: an event job and an update are enqueued, the snapshot of 1 byte is
acknowledged, and the jobs begun are the snapshot, then the event. -/
theorem first_transmitted_job_is_metrics_all_witness :
    (WebSocketHandler.run (fun _ => [0]) (WebSocketHandler.create (fun _ => [0]) (some 0) 0 8)
      [WsEvent.addTxJob { type := .WSTX_Event, payload := some "ticker.1" } true,
        WsEvent.addTxJob WebSocketTxJob.metricsUpdate true, WsEvent.ack 1]).2.started
      = [WebSocketTxJob.metricsAll, { type := .WSTX_Event, payload := some "ticker.1" }] ∧
    WebSocketTxJob.metricsAll.type = WebSocketTxJobType.WSTX_MetricsAll ∧
    (∃ later : List WebSocketTxJob,
      (WebSocketHandler.run (fun _ => [0])
        (WebSocketHandler.create (fun _ => [0]) (some 0) 0 8)
        [WsEvent.addTxJob { type := .WSTX_Event, payload := some "ticker.1" } true,
          WsEvent.addTxJob WebSocketTxJob.metricsUpdate true, WsEvent.ack 1]).2.started
        = WebSocketTxJob.metricsAll :: later) :=
  have h := first_transmitted_job_is_metrics_all (fun _ => [0]) (some 0) 0 8
    [WsEvent.addTxJob { type := .WSTX_Event, payload := some "ticker.1" } true,
      WsEvent.addTxJob WebSocketTxJob.metricsUpdate true, WsEvent.ack 1]
  ⟨by decide, h.1 WebSocketTxJob.metricsAll (by decide), h.2 (by decide)⟩

/-! ## Smart EQ: commands and V2 features -/

/-- The wake-up loop writes wake-up frames only, one per iteration at most. -/
theorem OvmsVehicleSmartEQ.wakeupLoop_frames (awake : Nat → Bool) (n : Nat) :
    ∀ i, (OvmsVehicleSmartEQ.wakeupLoop awake n i).2.length ≤ n ∧
      ∀ f ∈ (OvmsVehicleSmartEQ.wakeupLoop awake n i).2, f = wakeupFrame := by
  induction n with
  | zero => intro i; simp [OvmsVehicleSmartEQ.wakeupLoop]
  | succ n ih =>
    intro i
    obtain ⟨h1, h2⟩ := ih (i + 1)
    simp only [OvmsVehicleSmartEQ.wakeupLoop]
    split
    · simp
    · refine ⟨by simp; omega, ?_⟩
      intro f hf
      rcases List.mem_cons.mp hf with rfl | hf
      · rfl
      · exact h2 f hf

/-- The wake-up loop fails after `n` frames when the bus is asleep after each of them. -/
theorem OvmsVehicleSmartEQ.wakeupLoop_asleep (awake : Nat → Bool) (n : Nat) :
    ∀ i, (∀ j, j < n → awake (i + j) = false) →
      OvmsVehicleSmartEQ.wakeupLoop awake n i = (.Fail, List.replicate n wakeupFrame) := by
  induction n with
  | zero => intro i _; rfl
  | succ n ih =>
    intro i h
    have h0 : awake i = false := by simpa using h 0 (Nat.succ_pos n)
    have hrest := ih (i + 1) fun j hj => by
      have := h (j + 1) (Nat.succ_lt_succ hj)
      rwa [Nat.add_assoc, Nat.add_comm 1 j]
    simp [OvmsVehicleSmartEQ.wakeupLoop, h0, hrest, List.replicate_succ]

/-- The wake-up loop succeeds right after the first frame after which the bus is awake. -/
theorem OvmsVehicleSmartEQ.wakeupLoop_awake (awake : Nat → Bool) (n : Nat) :
    ∀ i k, k < n → awake (i + k) = true → (∀ j, j < k → awake (i + j) = false) →
      OvmsVehicleSmartEQ.wakeupLoop awake n i
        = (.Success, List.replicate (k + 1) wakeupFrame) := by
  induction n with
  | zero => intro i k hk; omega
  | succ n ih =>
    intro i k hk hawake hbefore
    cases k with
    | zero =>
      have h0 : awake i = true := by simpa using hawake
      simp [OvmsVehicleSmartEQ.wakeupLoop, h0]
    | succ k =>
      have h0 : awake i = false := by simpa using hbefore 0 (Nat.succ_pos k)
      have hrest := ih (i + 1) k (Nat.lt_of_succ_lt_succ hk)
        (by rwa [Nat.add_assoc, Nat.add_comm 1 k])
        (fun j hj => by
          have := hbefore (j + 1) (Nat.succ_lt_succ hj)
          rwa [Nat.add_assoc, Nat.add_comm 1 j])
      simp [OvmsVehicleSmartEQ.wakeupLoop, h0, hrest, List.replicate_succ]

/-- `CommandWakeup` writes wake-up frames only. -/
theorem OvmsVehicleSmartEQ.CommandWakeup_frames (self : OvmsVehicleSmartEQ)
    (awake : Nat → Bool) :
    (self.CommandWakeup awake).2.length ≤ 20 ∧
    ∀ f ∈ (self.CommandWakeup awake).2, f = wakeupFrame := by
  unfold OvmsVehicleSmartEQ.CommandWakeup
  split
  · simp
  · split
    · exact OvmsVehicleSmartEQ.wakeupLoop_frames awake 20 0
    · simp

/-- C11: `CommandWakeup` returns `Fail` and writes no frame when CAN write access is disabled.
With write access it returns `Success` without writing a frame if the bus is already awake;
otherwise it writes at most 20 frames, all of them the wake-up frame (ID 0x634, 4 bytes
40 00 00 00), returns `Success` right after the first frame after which the bus is observed
awake (frame `k + 1` when the first `k` observations were asleep), and returns `Fail` after
20 frames if the bus is asleep after each of them. -/
theorem CommandWakeup_result_and_frames (self : OvmsVehicleSmartEQ) (awake : Nat → Bool) :
    wakeupFrame = { id := 0x634, length := 4, data := [0x40, 0x00, 0x00, 0x00] } ∧
    (self.m_enable_write = false → self.CommandWakeup awake = (.Fail, [])) ∧
    (self.m_enable_write = true → self.mt_bus_awake = true →
      self.CommandWakeup awake = (.Success, [])) ∧
    (self.m_enable_write = true → self.mt_bus_awake = false →
      (self.CommandWakeup awake).2.length ≤ 20 ∧
      (∀ f ∈ (self.CommandWakeup awake).2, f = wakeupFrame) ∧
      (∀ k, k < 20 → awake k = true → (∀ j, j < k → awake j = false) →
        self.CommandWakeup awake = (.Success, List.replicate (k + 1) wakeupFrame)) ∧
      ((∀ j, j < 20 → awake j = false) →
        self.CommandWakeup awake = (.Fail, List.replicate 20 wakeupFrame))) := by
  refine ⟨rfl, ?_, ?_, ?_⟩
  · intro hw
    simp [OvmsVehicleSmartEQ.CommandWakeup, hw]
  · intro hw ha
    simp [OvmsVehicleSmartEQ.CommandWakeup, hw, ha]
  · intro hw ha
    have hf := OvmsVehicleSmartEQ.CommandWakeup_frames self awake
    refine ⟨hf.1, hf.2, ?_, ?_⟩
    · intro k hk hawake hbefore
      have := OvmsVehicleSmartEQ.wakeupLoop_awake awake 20 0 k hk (by simpa using hawake)
        (fun j hj => by simpa using hbefore j hj)
      simpa [OvmsVehicleSmartEQ.CommandWakeup, hw, ha] using this
    · intro hasleep
      have := OvmsVehicleSmartEQ.wakeupLoop_asleep awake 20 0
        (fun j hj => by simpa using hasleep j hj)
      simpa [OvmsVehicleSmartEQ.CommandWakeup, hw, ha] using this

/-- Instance of C11: with write access and the bus asleep, the bus is seen awake after the
third frame: three wake-up frames, then `Success`; and a bus that never wakes gets 20 frames
and `Fail`. -/
theorem CommandWakeup_result_and_frames_witness :
    (OvmsVehicleSmartEQ.fresh true false).CommandWakeup (fun i => decide (2 ≤ i))
      = (.Success, [wakeupFrame, wakeupFrame, wakeupFrame]) ∧
    (OvmsVehicleSmartEQ.fresh true false).CommandWakeup (fun _ => false)
      = (.Fail, List.replicate 20 wakeupFrame) ∧
    (OvmsVehicleSmartEQ.fresh false false).CommandWakeup (fun _ => true) = (.Fail, []) :=
  have h := CommandWakeup_result_and_frames (OvmsVehicleSmartEQ.fresh true false)
    (fun i => decide (2 ≤ i))
  have h2 := CommandWakeup_result_and_frames (OvmsVehicleSmartEQ.fresh true false)
    (fun _ => false)
  have h3 := CommandWakeup_result_and_frames (OvmsVehicleSmartEQ.fresh false false)
    (fun _ => true)
  ⟨(h.2.2.2 rfl rfl).2.2.1 2 (by decide) (by decide) (by decide),
    (h2.2.2.2 rfl rfl).2.2.2 (fun _ _ => rfl), h3.2.1 rfl⟩

/-- C12: `CommandClimateControl(enable)` returns `Fail`, writes no frame and leaves the module
(with its booster-start flag) unchanged when CAN write access is disabled. With write access
and `enable = true` it returns `Success` exactly when `CommandWakeup` returns `Success`; it
then writes, after the wake-up frames, exactly 10 climate frames (ID 0x634, 4 bytes
40 01 00 00) and sets `m_booster_start`; otherwise it returns `Fail`, has written no climate
frame and leaves the module unchanged. -/
theorem CommandClimateControl_result_and_frames (self : OvmsVehicleSmartEQ)
    (awake : Nat → Bool) (base : Bool → vehicle_command_t) (enable : Bool) :
    climateFrame = { id := 0x634, length := 4, data := [0x40, 0x01, 0x00, 0x00] } ∧
    (self.m_enable_write = false →
      self.CommandClimateControl awake base enable = (.Fail, [], self)) ∧
    (self.m_enable_write = true →
      ((self.CommandClimateControl awake base true).1 = .Success ↔
        (self.CommandWakeup awake).1 = .Success) ∧
      ((self.CommandWakeup awake).1 = .Success →
        self.CommandClimateControl awake base true
          = (.Success, (self.CommandWakeup awake).2 ++ List.replicate 10 climateFrame,
              { self with m_booster_start := true }) ∧
        (self.CommandClimateControl awake base true).2.1.count climateFrame = 10) ∧
      ((self.CommandWakeup awake).1 ≠ .Success →
        self.CommandClimateControl awake base true
          = (.Fail, (self.CommandWakeup awake).2, self) ∧
        (self.CommandClimateControl awake base true).2.1.count climateFrame = 0)) := by
  have hno : (self.CommandWakeup awake).2.count climateFrame = 0 := by
    rw [List.count_eq_zero]
    intro hmem
    have := (OvmsVehicleSmartEQ.CommandWakeup_frames self awake).2 _ hmem
    exact absurd this (by decide)
  refine ⟨rfl, ?_, ?_⟩
  · intro hw
    simp [OvmsVehicleSmartEQ.CommandClimateControl, hw]
  · intro hw
    have hok : (self.CommandWakeup awake).1 = .Success →
        self.CommandClimateControl awake base true
          = (.Success, (self.CommandWakeup awake).2 ++ List.replicate 10 climateFrame,
              { self with m_booster_start := true }) := by
      intro hs
      simp [OvmsVehicleSmartEQ.CommandClimateControl, hw, hs]
    have hfail : (self.CommandWakeup awake).1 ≠ .Success →
        self.CommandClimateControl awake base true
          = (.Fail, (self.CommandWakeup awake).2, self) := by
      intro hs
      simp [OvmsVehicleSmartEQ.CommandClimateControl, hw, hs]
    refine ⟨⟨?_, fun hs => by rw [hok hs]⟩, ?_, ?_⟩
    · intro hres
      by_contra hs
      rw [hfail hs] at hres
      simp at hres
    · intro hs
      refine ⟨hok hs, ?_⟩
      rw [hok hs]
      simp [List.count_append, hno, List.count_replicate_self]
    · intro hs
      refine ⟨hfail hs, ?_⟩
      rw [hfail hs]
      exact hno

/-- Instance of C12: write access, bus awake after the second wake-up frame: two wake-up
frames, ten climate frames, `Success`, booster flag set; without write access nothing. -/
theorem CommandClimateControl_result_and_frames_witness :
    (OvmsVehicleSmartEQ.fresh true false).CommandClimateControl (fun i => decide (1 ≤ i))
        (fun _ => .NotImplemented) true
      = (.Success, [wakeupFrame, wakeupFrame] ++ List.replicate 10 climateFrame,
          { OvmsVehicleSmartEQ.fresh true false with m_booster_start := true }) ∧
    (OvmsVehicleSmartEQ.fresh false false).CommandClimateControl (fun _ => true)
        (fun _ => .NotImplemented) true
      = (.Fail, [], OvmsVehicleSmartEQ.fresh false false) :=
  have h := CommandClimateControl_result_and_frames (OvmsVehicleSmartEQ.fresh true false)
    (fun i => decide (1 ≤ i)) (fun _ => .NotImplemented) true
  have h2 := CommandClimateControl_result_and_frames (OvmsVehicleSmartEQ.fresh false false)
    (fun _ => true) (fun _ => .NotImplemented) true
  ⟨((h.2.2 rfl).2.1 (by decide)).1, h2.2.1 rfl⟩

/-- The test `(bits & 1) != 0` is the test that `bits` is odd. -/
theorem intBit0_eq_odd (bits : Int) : intBit0 bits = decide (bits % 2 = 1) := by
  have e : (2 : Int) ^ 32 = 4294967296 := by norm_num
  have hn : ((bits % 4294967296).toNat : Int) = bits % 4294967296 :=
    Int.toNat_of_nonneg (Int.emod_nonneg _ (by norm_num))
  simp only [intBit0, Nat.and_one_is_mod, e]
  by_cases h : bits % 2 = 1
  · have : (bits % 4294967296).toNat % 2 = 1 := by omega
    simp [h, this]
  · have : (bits % 4294967296).toNat % 2 = 0 := by omega
    simp [h, this]

/-- C13: V2 feature 15 on the Smart EQ module. For every value string `v`, `SetFeature(15, v)`
returns `true` and stores bit 0 of the integer `atoi(v)` as the flag `xsq`/`canwrite` (`yes`
when the integer is odd, `no` when it is even), touching no other parameter; a following
`GetFeature(15)` returns `1` when the integer is odd and `0` when it is even; and while
`canwrite` was never set `GetFeature(15)` returns `0`. -/
theorem feature15_set_get_roundtrip (atoi : String → Int) (baseSet : Int → String → Bool)
    (baseGet : Int → String) (cfg : OvmsConfig) (v : String) :
    (OvmsVehicleSmartEQ.SetFeature atoi baseSet cfg 15 v).1 = true ∧
    (OvmsVehicleSmartEQ.SetFeature atoi baseSet cfg 15 v).2 "xsq" "canwrite"
      = some (if atoi v % 2 = 1 then "yes" else "no") ∧
    (∀ p i, ¬ (p = "xsq" ∧ i = "canwrite") →
      (OvmsVehicleSmartEQ.SetFeature atoi baseSet cfg 15 v).2 p i = cfg p i) ∧
    OvmsVehicleSmartEQ.GetFeature baseGet
        (OvmsVehicleSmartEQ.SetFeature atoi baseSet cfg 15 v).2 15
      = (if atoi v % 2 = 1 then "1" else "0") ∧
    (cfg "xsq" "canwrite" = none → OvmsVehicleSmartEQ.GetFeature baseGet cfg 15 = "0") := by
  have hset : (OvmsVehicleSmartEQ.SetFeature atoi baseSet cfg 15 v).2 "xsq" "canwrite"
      = some (if atoi v % 2 = 1 then "yes" else "no") := by
    simp only [OvmsVehicleSmartEQ.SetFeature, OvmsConfig.SetParamValueBool,
      OvmsConfig.SetParamValue, intBit0_eq_odd]
    by_cases h : atoi v % 2 = 1 <;> simp [h, OvmsConfig.SetParamValue]
  refine ⟨by simp [OvmsVehicleSmartEQ.SetFeature], hset, ?_, ?_, ?_⟩
  · intro p i hne
    simp [OvmsVehicleSmartEQ.SetFeature, OvmsConfig.SetParamValueBool,
      OvmsConfig.SetParamValue, hne]
  · simp only [OvmsVehicleSmartEQ.GetFeature, OvmsConfig.GetParamValueBool, hset]
    by_cases h : atoi v % 2 = 1
    · simp [h]; rfl
    · simp [h]; rfl
  · intro hnone
    simp only [OvmsVehicleSmartEQ.GetFeature, OvmsConfig.GetParamValueBool, hnone]
    simp; rfl

/-- Instance of C13: the value parsed as 3 sets the flag and reads back as `1`, the value
parsed as 4 clears it and reads back as `0`, and an empty configuration reads as `0`. -/
theorem feature15_set_get_roundtrip_witness :
    OvmsVehicleSmartEQ.GetFeature (fun _ => "")
        (OvmsVehicleSmartEQ.SetFeature (fun _ => 3) (fun _ _ => false) (fun _ _ => none)
          15 "3").2 15 = "1" ∧
    OvmsVehicleSmartEQ.GetFeature (fun _ => "")
        (OvmsVehicleSmartEQ.SetFeature (fun _ => 4) (fun _ _ => false) (fun _ _ => none)
          15 "4").2 15 = "0" ∧
    OvmsVehicleSmartEQ.GetFeature (fun _ => "") (fun _ _ => none) 15 = "0" :=
  ⟨(feature15_set_get_roundtrip (fun _ => 3) (fun _ _ => false) (fun _ => "")
      (fun _ _ => none) "3").2.2.2.1,
    (feature15_set_get_roundtrip (fun _ => 4) (fun _ _ => false) (fun _ => "")
      (fun _ _ => none) "4").2.2.2.1,
    (feature15_set_get_roundtrip (fun _ => 3) (fun _ _ => false) (fun _ => "")
      (fun _ _ => none) "3").2.2.2.2 rfl⟩

/-! ## Housekeeping ticker -/

/-- Away from the wrap of the tick count (`last_tick + period` below `2^32`, period at least 3,
the call not before the last processed one) the guard compares the ticks elapsed with
`period - 3`: fewer ticks, and the call changes nothing and signals nothing; at least that
many, and the call is processed once. -/
theorem HousekeepingTicker1_guard_without_wrap (period : Nat) (c : TickerCall)
    (s : HousekeepingState) (hp : 3 ≤ period) (hw : s.last_tick + period < 2 ^ 32)
    (hc : s.last_tick ≤ c.curr_tick) :
    (c.curr_tick - s.last_tick < period - 3 → HousekeepingTicker1 period c s = (s, [])) ∧
    (period - 3 ≤ c.curr_tick - s.last_tick →
      HousekeepingTicker1 period c s = HousekeepingTicker1.process c s ∧
      (HousekeepingTicker1 period c s).1.monotonictime = (s.monotonictime + 1) % 2 ^ 32 ∧
      (HousekeepingTicker1 period c s).1.last_tick = c.curr_tick) := by
  have ht : tickSub (tickAdd s.last_tick period) 3 = s.last_tick + period - 3 := by
    simp only [tickSub, tickAdd]
    norm_num at hw ⊢
    omega
  constructor
  · intro h
    have : c.curr_tick < s.last_tick + period - 3 := by omega
    simp [HousekeepingTicker1, ht, this]
  · intro h
    have : ¬ c.curr_tick < s.last_tick + period - 3 := by omega
    simp [HousekeepingTicker1, ht, this, HousekeepingTicker1.process]

/-- C14, the code at the wrap of the 32-bit tick count, period 1000. (a) The last processed
call was at tick `2^32 - 998`; the next timer firing comes 1000 ticks later, at the wrapped
count 2: the guard compares 2 with `2^32 - 1`, so the call is dropped: nothing changes and no
event is signalled, though 1000 is at least `period - 3`. (b) The last processed call was at
tick `2^32 - 500`; a duplicate firing 100 ticks later is processed, because the threshold
`last_tick + period - 3` has wrapped to 497. -/
theorem HousekeepingTicker1_guard_at_wrap :
    tickSub 2 4294966298 = 1000 ∧
    HousekeepingTicker1 1000 (TickerCall.mk 2 0 (tm.mk 30 0 12 1))
        (HousekeepingState.mk 4294966298 7 7 7 0)
      = (HousekeepingState.mk 4294966298 7 7 7 0, []) ∧
    tickSub 4294966896 4294966796 = 100 ∧
    HousekeepingTicker1 1000 (TickerCall.mk 4294966896 0 (tm.mk 30 0 12 1))
        (HousekeepingState.mk 4294966796 7 7 7 0)
      = (HousekeepingState.mk 4294966896 8 8 8 0, ["ticker.1"]) := by
  decide

/-- The nested tests after `tick++` on a counter in 0..3599: the events are those of the flat
rule for `tick + 1`, and the counter afterwards is `tick + 1` reset to 0 at 3600. -/
theorem tickEvents_flat (t : Nat) (ht : t < 3600) :
    tickEvents (t : Int) = (tickerEventsSpec (t + 1), (((t + 1) % 3600 : Nat) : Int)) := by
  have e10 : "ticker." ++ toString 10 = "ticker.10" := by decide
  have e60 : "ticker." ++ toString 60 = "ticker.60" := by decide
  have e300 : "ticker." ++ toString 300 = "ticker.300" := by decide
  have e600 : "ticker." ++ toString 600 = "ticker.600" := by decide
  have e3600 : "ticker." ++ toString 3600 = "ticker.3600" := by decide
  simp only [tickEvents, tickerEventsSpec, List.filter, List.map]
  by_cases h10 : (10 : Nat) ∣ t + 1
  · by_cases h60 : (60 : Nat) ∣ t + 1
    · by_cases h300 : (300 : Nat) ∣ t + 1
      · by_cases h600 : (600 : Nat) ∣ t + 1
        · by_cases h3600 : (3600 : Nat) ∣ t + 1
          · have a1 : ((t : Int) + 1) % 10 = 0 := by omega
            have a2 : ((t : Int) + 1) % 60 = 0 := by omega
            have a3 : ((t : Int) + 1) % 300 = 0 := by omega
            have a4 : ((t : Int) + 1) % 600 = 0 := by omega
            have a5 : ((t : Int) + 1) % 3600 = 0 := by omega
            have a6 : (t + 1) % 3600 = 0 := by omega
            simp [h10, h60, h300, h600, h3600, a1, a2, a3, a4, a5, a6, e10, e60, e300, e600,
              e3600]
          · have a1 : ((t : Int) + 1) % 10 = 0 := by omega
            have a2 : ((t : Int) + 1) % 60 = 0 := by omega
            have a3 : ((t : Int) + 1) % 300 = 0 := by omega
            have a4 : ((t : Int) + 1) % 600 = 0 := by omega
            have a5 : ¬ ((t : Int) + 1) % 3600 = 0 := by omega
            have a6 : (t + 1) % 3600 = t + 1 := by omega
            simp [h10, h60, h300, h600, h3600, a1, a2, a3, a4, a5, a6, e10, e60, e300, e600]
        · have a1 : ((t : Int) + 1) % 10 = 0 := by omega
          have a2 : ((t : Int) + 1) % 60 = 0 := by omega
          have a3 : ((t : Int) + 1) % 300 = 0 := by omega
          have a4 : ¬ ((t : Int) + 1) % 600 = 0 := by omega
          have h3600 : ¬ (3600 : Nat) ∣ t + 1 := by omega
          have a6 : (t + 1) % 3600 = t + 1 := by omega
          simp [h10, h60, h300, h600, h3600, a1, a2, a3, a4, a6, e10, e60, e300]
      · have a1 : ((t : Int) + 1) % 10 = 0 := by omega
        have a2 : ((t : Int) + 1) % 60 = 0 := by omega
        have a3 : ¬ ((t : Int) + 1) % 300 = 0 := by omega
        have h600 : ¬ (600 : Nat) ∣ t + 1 := by omega
        have h3600 : ¬ (3600 : Nat) ∣ t + 1 := by omega
        have a6 : (t + 1) % 3600 = t + 1 := by omega
        simp [h10, h60, h300, h600, h3600, a1, a2, a3, a6, e10, e60]
    · have a1 : ((t : Int) + 1) % 10 = 0 := by omega
      have a2 : ¬ ((t : Int) + 1) % 60 = 0 := by omega
      have h300 : ¬ (300 : Nat) ∣ t + 1 := by omega
      have h600 : ¬ (600 : Nat) ∣ t + 1 := by omega
      have h3600 : ¬ (3600 : Nat) ∣ t + 1 := by omega
      have a6 : (t + 1) % 3600 = t + 1 := by omega
      simp [h10, h60, h300, h600, h3600, a1, a2, a6, e10]
  · have a1 : ¬ ((t : Int) + 1) % 10 = 0 := by omega
    have h60 : ¬ (60 : Nat) ∣ t + 1 := by omega
    have h300 : ¬ (300 : Nat) ∣ t + 1 := by omega
    have h600 : ¬ (600 : Nat) ∣ t + 1 := by omega
    have h3600 : ¬ (3600 : Nat) ∣ t + 1 := by omega
    have a6 : (t + 1) % 3600 = t + 1 := by omega
    simp [h10, h60, h300, h600, h3600, a1, a6]

/-- After `k` processed calls from a counter `t0` in 0..3599 the counter is
`(t0 + k) mod 3600`. -/
theorem HousekeepingTicker1.processAll_tick (calls : List TickerCall) :
    ∀ (s : HousekeepingState) (t0 : Nat), t0 < 3600 → s.tick = (t0 : Int) →
      (HousekeepingTicker1.processAll s calls).tick
        = (((t0 + calls.length) % 3600 : Nat) : Int) := by
  induction calls with
  | nil =>
    intro s t0 ht hs
    simp [HousekeepingTicker1.processAll, hs, Nat.mod_eq_of_lt ht]
  | cons c calls ih =>
    intro s t0 ht hs
    have hstep : (HousekeepingTicker1.process c s).1.tick = (((t0 + 1) % 3600 : Nat) : Int) := by
      simp [HousekeepingTicker1.process, hs, tickEvents_flat t0 ht]
    have := ih (HousekeepingTicker1.process c s).1 ((t0 + 1) % 3600)
      (Nat.mod_lt _ (by norm_num)) hstep
    simp only [HousekeepingTicker1.processAll, List.foldl_cons, List.length_cons] at this ⊢
    rw [this]
    congr 1
    omega

/-- The flat rule lists `ticker.N` exactly when `N` divides `n`, for each of the five `N`. -/
theorem tickerEventsSpec_mem (n N : Nat) (hN : N ∈ [10, 60, 300, 600, 3600]) :
    ("ticker." ++ toString N) ∈ tickerEventsSpec n ↔ N ∣ n := by
  simp only [tickerEventsSpec, List.mem_map, List.mem_filter, decide_eq_true_eq]
  constructor
  · rintro ⟨M, ⟨hM, hd⟩, he⟩
    simp only [List.mem_cons, List.mem_singleton, List.not_mem_nil, or_false] at hM hN
    rcases hN with rfl | rfl | rfl | rfl | rfl <;>
      rcases hM with rfl | rfl | rfl | rfl | rfl <;>
      first
        | exact hd
        | exact absurd he (by decide)
  · intro hd
    exact ⟨N, ⟨hN, hd⟩, rfl⟩

/-- C15: for every `n ≥ 1`, the `n`-th processed `HousekeepingTicker1` call after `Init`
(`tick = 0`), here the call after `n - 1` earlier processed calls, signals `ticker.1` and then,
for each `N` of 10, 60, 300, 600, 3600 in increasing order, `ticker.N` exactly when `N` divides
`n` (followed by the clock events of that second): the nested modulo tests with the reset at
3600 are the flat divisibility rule. The counter afterwards is `n mod 3600`, in 0..3599. -/
theorem ticker_events_follow_divisibility (s0 : HousekeepingState) (calls : List TickerCall)
    (c : TickerCall) (h0 : s0.tick = 0) :
    (HousekeepingTicker1.process c (HousekeepingTicker1.processAll s0 calls)).2
      = "ticker.1" :: tickerEventsSpec (calls.length + 1) ++ clockEvents c.tmu ∧
    (∀ N ∈ [10, 60, 300, 600, 3600],
      ("ticker." ++ toString N) ∈ tickerEventsSpec (calls.length + 1) ↔
        N ∣ calls.length + 1) ∧
    (HousekeepingTicker1.process c (HousekeepingTicker1.processAll s0 calls)).1.tick
      = (((calls.length + 1) % 3600 : Nat) : Int) ∧
    0 ≤ (HousekeepingTicker1.process c (HousekeepingTicker1.processAll s0 calls)).1.tick ∧
    (HousekeepingTicker1.process c (HousekeepingTicker1.processAll s0 calls)).1.tick
      ≤ 3599 := by
  have ht := HousekeepingTicker1.processAll_tick calls s0 0 (by norm_num) (by simpa using h0)
  rw [Nat.zero_add] at ht
  have hlt : calls.length % 3600 < 3600 := Nat.mod_lt _ (by norm_num)
  have hflat := tickEvents_flat (calls.length % 3600) hlt
  have hspec : tickerEventsSpec (calls.length % 3600 + 1) = tickerEventsSpec (calls.length + 1) := by
    simp only [tickerEventsSpec]
    congr 1
    apply List.filter_congr
    intro N hN
    simp only [List.mem_cons, List.mem_singleton, List.not_mem_nil, or_false] at hN
    have : N ∣ calls.length % 3600 + 1 ↔ N ∣ calls.length + 1 := by
      rcases hN with rfl | rfl | rfl | rfl | rfl <;> omega
    simp [this]
  have hmod : (calls.length % 3600 + 1) % 3600 = (calls.length + 1) % 3600 := by omega
  have htick : (HousekeepingTicker1.process c
      (HousekeepingTicker1.processAll s0 calls)).1.tick
      = (((calls.length + 1) % 3600 : Nat) : Int) := by
    simp only [HousekeepingTicker1.process]
    rw [ht, hflat, hmod]
  refine ⟨?_, fun N hN => tickerEventsSpec_mem _ N hN, htick, ?_, ?_⟩
  · simp only [HousekeepingTicker1.process]
    rw [ht, hflat, hspec]
  · rw [htick]
    omega
  · rw [htick]
    omega

/-- Instance of C15: the 60th processed call after `Init` signals `ticker.1`, `ticker.10` and
`ticker.60`, and the counter after the 3600th is `3600 mod 3600`. -/
theorem ticker_events_follow_divisibility_witness :
    tickerEventsSpec 60 = ["ticker.10", "ticker.60"] ∧
    (HousekeepingTicker1.process (TickerCall.mk 60000 0 (tm.mk 30 0 12 1))
      (HousekeepingTicker1.processAll (HousekeepingState.mk 0 0 0 0 0)
        (List.replicate 59 (TickerCall.mk 0 0 (tm.mk 30 0 12 1))))).2
      = "ticker.1" ::
          tickerEventsSpec ((List.replicate 59 (TickerCall.mk 0 0 (tm.mk 30 0 12 1))).length + 1)
          ++ clockEvents (tm.mk 30 0 12 1) ∧
    (HousekeepingTicker1.process (TickerCall.mk 0 0 (tm.mk 30 0 12 1))
      (HousekeepingTicker1.processAll (HousekeepingState.mk 0 0 0 0 0)
        (List.replicate 3599 (TickerCall.mk 0 0 (tm.mk 30 0 12 1))))).1.tick
      = ((((List.replicate 3599 (TickerCall.mk 0 0 (tm.mk 30 0 12 1))).length + 1) % 3600 : Nat)
          : Int) :=
  ⟨by decide,
    (ticker_events_follow_divisibility (HousekeepingState.mk 0 0 0 0 0)
      (List.replicate 59 (TickerCall.mk 0 0 (tm.mk 30 0 12 1)))
      (TickerCall.mk 60000 0 (tm.mk 30 0 12 1)) rfl).1,
    (ticker_events_follow_divisibility (HousekeepingState.mk 0 0 0 0 0)
      (List.replicate 3599 (TickerCall.mk 0 0 (tm.mk 30 0 12 1)))
      (TickerCall.mk 0 0 (tm.mk 30 0 12 1)) rfl).2.2.1⟩

/-! ## Smart EQ: incoming frames -/

/-- The `0x658` case by the charge bit and `lastCharging`. -/
theorem OvmsVehicleSmartEQ.frame658_cases (f : CAN_frame_t) (s : OvmsVehicleSmartEQ) :
    (s.frame658 f).lastCharging = f.chargeBit ∧
    (f.chargeBit = s.lastCharging → (s.frame658 f).chargeMetrics = s.chargeMetrics) ∧
    (f.chargeBit = true → s.lastCharging = false →
      (s.frame658 f).chargeMetrics
        = (true, true, "standard", "type2", "charging", "onrequest")) ∧
    (f.chargeBit = false → s.lastCharging = true →
      (s.ms_v_bat_soc < 95 → (s.frame658 f).chargeMetrics
        = (false, false, "standard", "type2", "stopped", "interrupted")) ∧
      (95 ≤ s.ms_v_bat_soc → (s.frame658 f).chargeMetrics
        = (false, false, "standard", "type2", "done", "onrequest"))) := by
  have hbit : ((f.CAN_BYTE 5 &&& 0x20) != 0) = f.chargeBit := rfl
  refine ⟨?_, ?_, ?_, ?_⟩
  · simp only [OvmsVehicleSmartEQ.frame658, hbit]
    split
    · split
      · rfl
      · split <;> rfl
    · rfl
  · intro h
    simp [OvmsVehicleSmartEQ.frame658, hbit, h, OvmsVehicleSmartEQ.chargeMetrics]
  · intro h1 h2
    simp [OvmsVehicleSmartEQ.frame658, hbit, h1, h2, OvmsVehicleSmartEQ.chargeMetrics]
  · intro h1 h2
    constructor
    · intro hsoc
      simp [OvmsVehicleSmartEQ.frame658, hbit, h1, h2, hsoc, OvmsVehicleSmartEQ.chargeMetrics]
    · intro hsoc
      have : ¬ s.ms_v_bat_soc < 95 := not_lt.mpr hsoc
      simp [OvmsVehicleSmartEQ.frame658, hbit, h1, h2, this, OvmsVehicleSmartEQ.chargeMetrics]

/-- The head of `IncomingFrameCan1` changes the bus-awake flag, the poll flag and the activity
timer only. -/
theorem OvmsVehicleSmartEQ.frameActivity_keeps (T : Int) (self : OvmsVehicleSmartEQ) :
    (self.frameActivity T).lastCharging = self.lastCharging ∧
    (self.frameActivity T).ms_v_bat_soc = self.ms_v_bat_soc ∧
    (self.frameActivity T).chargeMetrics = self.chargeMetrics := by
  unfold OvmsVehicleSmartEQ.frameActivity OvmsVehicleSmartEQ.chargeMetrics
  by_cases hpre : self.m_candata_poll ≠ 1 ∧ self.ms_v_bat_voltage > 100
  · rw [if_pos hpre]
    exact ⟨rfl, rfl, rfl⟩
  · rw [if_neg hpre]
    exact ⟨rfl, rfl, rfl⟩

/-- The `0x654` case leaves `lastCharging` and the charge metrics as they are. -/
theorem OvmsVehicleSmartEQ.frame654_keeps (f : CAN_frame_t) (s : OvmsVehicleSmartEQ) :
    (s.frame654 f).lastCharging = s.lastCharging ∧
    (s.frame654 f).chargeMetrics = s.chargeMetrics := by
  unfold OvmsVehicleSmartEQ.frame654
  dsimp only
  split <;> exact ⟨rfl, rfl⟩

/-- The `0x673` case leaves `lastCharging` and the charge metrics as they are. -/
theorem OvmsVehicleSmartEQ.frame673_keeps (f : CAN_frame_t) (s : OvmsVehicleSmartEQ) :
    (s.frame673 f).lastCharging = s.lastCharging ∧
    (s.frame673 f).chargeMetrics = s.chargeMetrics := by
  have h1 : ∀ t : OvmsVehicleSmartEQ, (t.tpmsRR f).lastCharging = t.lastCharging ∧
      (t.tpmsRR f).chargeMetrics = t.chargeMetrics := by
    intro t; unfold OvmsVehicleSmartEQ.tpmsRR; split <;> exact ⟨rfl, rfl⟩
  have h2 : ∀ t : OvmsVehicleSmartEQ, (t.tpmsRL f).lastCharging = t.lastCharging ∧
      (t.tpmsRL f).chargeMetrics = t.chargeMetrics := by
    intro t; unfold OvmsVehicleSmartEQ.tpmsRL; split <;> exact ⟨rfl, rfl⟩
  have h3 : ∀ t : OvmsVehicleSmartEQ, (t.tpmsFR f).lastCharging = t.lastCharging ∧
      (t.tpmsFR f).chargeMetrics = t.chargeMetrics := by
    intro t; unfold OvmsVehicleSmartEQ.tpmsFR; split <;> exact ⟨rfl, rfl⟩
  have h4 : ∀ t : OvmsVehicleSmartEQ, (t.tpmsFL f).lastCharging = t.lastCharging ∧
      (t.tpmsFL f).chargeMetrics = t.chargeMetrics := by
    intro t; unfold OvmsVehicleSmartEQ.tpmsFL; split <;> exact ⟨rfl, rfl⟩
  unfold OvmsVehicleSmartEQ.frame673
  exact ⟨by rw [(h4 _).1, (h3 _).1, (h2 _).1, (h1 _).1],
    by rw [(h4 _).2, (h3 _).2, (h2 _).2, (h1 _).2]⟩

/-- A frame with another ID than `0x658` leaves `lastCharging` and the charge metrics as they
are. -/
theorem OvmsVehicleSmartEQ.frameSwitch_other (f : CAN_frame_t) (s : OvmsVehicleSmartEQ)
    (hid : f.MsgID ≠ 0x658) :
    (s.frameSwitch f).lastCharging = s.lastCharging ∧
    (s.frameSwitch f).chargeMetrics = s.chargeMetrics := by
  unfold OvmsVehicleSmartEQ.frameSwitch
  by_cases h0 : f.MsgID = 0x392
  · rw [if_pos h0]
    exact ⟨rfl, rfl⟩
  rw [if_neg h0]
  by_cases h1 : f.MsgID = 0x42E
  · rw [if_pos h1]
    exact ⟨rfl, rfl⟩
  rw [if_neg h1]
  by_cases h2 : f.MsgID = 0x4F8
  · rw [if_pos h2]
    exact ⟨rfl, rfl⟩
  rw [if_neg h2]
  by_cases h3 : f.MsgID = 0x5D7
  · rw [if_pos h3]
    exact ⟨rfl, rfl⟩
  rw [if_neg h3]
  by_cases h4 : f.MsgID = 0x5de
  · rw [if_pos h4]
    exact ⟨rfl, rfl⟩
  rw [if_neg h4]
  by_cases h5 : f.MsgID = 0x654
  · rw [if_pos h5]
    exact OvmsVehicleSmartEQ.frame654_keeps f s
  rw [if_neg h5]
  by_cases h6 : f.MsgID = 0x65C
  · rw [if_pos h6]
    exact ⟨rfl, rfl⟩
  rw [if_neg h6]
  rw [if_neg hid]
  by_cases h8 : f.MsgID = 0x668
  · rw [if_pos h8]
    exact ⟨rfl, rfl⟩
  rw [if_neg h8]
  by_cases h9 : f.MsgID = 0x673
  · rw [if_pos h9]
    exact OvmsVehicleSmartEQ.frame673_keeps f s
  rw [if_neg h9]
  exact ⟨rfl, rfl⟩

/-- A frame with the ID `0x658` runs the `0x658` case. -/
theorem OvmsVehicleSmartEQ.frameSwitch_658 (f : CAN_frame_t) (s : OvmsVehicleSmartEQ)
    (hid : f.MsgID = 0x658) : s.frameSwitch f = s.frame658 f := by
  simp [OvmsVehicleSmartEQ.frameSwitch, hid]

/-- C16: the Smart EQ charge metrics are edge-triggered on frame `0x658`. `lastCharging` holds
the charge-in-progress bit (byte 5, mask 0x20) of the previous `0x658` frame: such a frame
stores its bit there and no other frame changes it. If the bit of a `0x658` frame equals that
value, none of pilot, in progress, mode, type, state, substate is changed; on a change to set,
pilot and in progress become true and state/substate `charging`/`onrequest`; on a change to
clear, pilot and in progress become false and state/substate `stopped`/`interrupted` when
SOC < 95 and `done`/`onrequest` when SOC >= 95. -/
theorem smarteq_charge_metrics_edge_triggered (T : Int) (f : CAN_frame_t)
    (self : OvmsVehicleSmartEQ) :
    (f.MsgID ≠ 0x658 →
      (self.IncomingFrameCan1 T f).lastCharging = self.lastCharging ∧
      (self.IncomingFrameCan1 T f).chargeMetrics = self.chargeMetrics) ∧
    (f.MsgID = 0x658 →
      (self.IncomingFrameCan1 T f).lastCharging = f.chargeBit ∧
      (f.chargeBit = self.lastCharging →
        (self.IncomingFrameCan1 T f).chargeMetrics = self.chargeMetrics) ∧
      (f.chargeBit = true → self.lastCharging = false →
        (self.IncomingFrameCan1 T f).chargeMetrics
          = (true, true, "standard", "type2", "charging", "onrequest")) ∧
      (f.chargeBit = false → self.lastCharging = true →
        (self.ms_v_bat_soc < 95 → (self.IncomingFrameCan1 T f).chargeMetrics
          = (false, false, "standard", "type2", "stopped", "interrupted")) ∧
        (95 ≤ self.ms_v_bat_soc → (self.IncomingFrameCan1 T f).chargeMetrics
          = (false, false, "standard", "type2", "done", "onrequest")))) := by
  obtain ⟨hl, hsoc, hm⟩ := OvmsVehicleSmartEQ.frameActivity_keeps T self
  constructor
  · intro hid
    obtain ⟨o1, o2⟩ := OvmsVehicleSmartEQ.frameSwitch_other f (self.frameActivity T) hid
    exact ⟨by rw [OvmsVehicleSmartEQ.IncomingFrameCan1, o1, hl],
      by rw [OvmsVehicleSmartEQ.IncomingFrameCan1, o2, hm]⟩
  · intro hid
    obtain ⟨c1, c2, c3, c4⟩ := OvmsVehicleSmartEQ.frame658_cases f (self.frameActivity T)
    rw [OvmsVehicleSmartEQ.IncomingFrameCan1, OvmsVehicleSmartEQ.frameSwitch_658 f _ hid]
    rw [hl] at c2 c3 c4
    rw [hsoc] at c4
    rw [hm] at c2
    exact ⟨c1, c2, c3, c4⟩

/-- Instance of C16: a `0x658` frame with the bit set starts a charge; a following `0x658`
frame with the bit clear at SOC 80 ends it as interrupted. -/
theorem smarteq_charge_metrics_edge_triggered_witness :
    ((OvmsVehicleSmartEQ.fresh true false).IncomingFrameCan1 10
        (CAN_frame_t.mk 0x658 [0, 0, 0, 0, 0x64, 0x20, 0, 0])).chargeMetrics
      = (true, true, "standard", "type2", "charging", "onrequest") ∧
    ({ OvmsVehicleSmartEQ.fresh true false with lastCharging := true, ms_v_bat_soc := 80
        }.IncomingFrameCan1 10 (CAN_frame_t.mk 0x658 [0, 0, 0, 0, 0x64, 0x00, 0, 0])).chargeMetrics
      = (false, false, "standard", "type2", "stopped", "interrupted") ∧
    ((OvmsVehicleSmartEQ.fresh true false).IncomingFrameCan1 10
        (CAN_frame_t.mk 0x668 [0x40, 0, 0, 0, 0, 0, 0, 0])).chargeMetrics
      = (OvmsVehicleSmartEQ.fresh true false).chargeMetrics :=
  ⟨((smarteq_charge_metrics_edge_triggered 10
      (CAN_frame_t.mk 0x658 [0, 0, 0, 0, 0x64, 0x20, 0, 0])
      (OvmsVehicleSmartEQ.fresh true false)).2 rfl).2.2.1 (by decide) rfl,
    (((smarteq_charge_metrics_edge_triggered 10
      (CAN_frame_t.mk 0x658 [0, 0, 0, 0, 0x64, 0x00, 0, 0])
      { OvmsVehicleSmartEQ.fresh true false with lastCharging := true, ms_v_bat_soc := 80 }).2
      rfl).2.2.2 (by decide) rfl).1 (by decide),
    ((smarteq_charge_metrics_edge_triggered 10
      (CAN_frame_t.mk 0x668 [0x40, 0, 0, 0, 0, 0, 0, 0])
      (OvmsVehicleSmartEQ.fresh true false)).1 (by decide)).2⟩

/-- The temperature field of a `0x42E` frame is a 7-bit number `t`; the value the case hands
to `ms_v_bat_temp` is `t - 40` computed in `uint64_t`: `t - 40` for `t` from 40 on, and
`2^64 - 40 + t` for `t` below 40. -/
theorem OvmsVehicleSmartEQ.frame42E_bat_temp (f : CAN_frame_t) (s : OvmsVehicleSmartEQ) :
    (swap_uint64 f.u64 >>> 13) &&& 0x7F ≤ 127 ∧
    (s.frame42E f).ms_v_bat_temp
      = ((u64Sub ((swap_uint64 f.u64 >>> 13) &&& 0x7F) 40 : Nat) : Int) ∧
    (40 ≤ (swap_uint64 f.u64 >>> 13) &&& 0x7F →
      (s.frame42E f).ms_v_bat_temp = (((swap_uint64 f.u64 >>> 13) &&& 0x7F : Nat) : Int) - 40) ∧
    ((swap_uint64 f.u64 >>> 13) &&& 0x7F < 40 →
      (s.frame42E f).ms_v_bat_temp
        = 18446744073709551576 + (((swap_uint64 f.u64 >>> 13) &&& 0x7F : Nat) : Int)) := by
  have hle : (swap_uint64 f.u64 >>> 13) &&& 0x7F ≤ 127 := Nat.and_le_right
  refine ⟨hle, rfl, ?_, ?_⟩
  · intro h
    simp only [OvmsVehicleSmartEQ.frame42E, u64Sub]
    norm_num
    omega
  · intro h
    simp only [OvmsVehicleSmartEQ.frame42E, u64Sub]
    norm_num
    omega

/-- C20, the code at a temperature below 0 degrees: the `0x42E` frame with data bytes
00 00 00 00 00 03 C0 00 carries `t = 30` in bits 13..19 of `c`, i.e. -10 degrees; the value
handed to `ms_v_bat_temp` is `2^64 - 10 = 18446744073709551606`, not -10, and it is outside
-40..87. A frame with `t = 127` (bytes 00 00 00 00 00 0F E0 00) gives 87. -/
theorem smarteq_bat_temp_wraps_below_zero :
    (swap_uint64 (CAN_frame_t.mk 0x42E [0, 0, 0, 0, 0, 0x03, 0xC0, 0]).u64 >>> 13) &&& 0x7F
      = 30 ∧
    ((OvmsVehicleSmartEQ.fresh true false).IncomingFrameCan1 10
      (CAN_frame_t.mk 0x42E [0, 0, 0, 0, 0, 0x03, 0xC0, 0])).ms_v_bat_temp
      = 18446744073709551606 ∧
    ¬ ((OvmsVehicleSmartEQ.fresh true false).IncomingFrameCan1 10
      (CAN_frame_t.mk 0x42E [0, 0, 0, 0, 0, 0x03, 0xC0, 0])).ms_v_bat_temp ≤ 87 ∧
    ((OvmsVehicleSmartEQ.fresh true false).IncomingFrameCan1 10
      (CAN_frame_t.mk 0x42E [0, 0, 0, 0, 0, 0x0F, 0xE0, 0])).ms_v_bat_temp = 87 := by
  decide

/-! ## Volt/Ampera -/

/-- The CAN-bus timeout part of `Ticker1` leaves the charger readings, the SOC and the charge
fields as they are. -/
theorem OvmsVehicleVoltAmpera.sleepTick_keeps (s : OvmsVehicleVoltAmpera) :
    s.sleepTick.ms_v_charge_current = s.ms_v_charge_current ∧
    s.sleepTick.ms_v_charge_voltage = s.ms_v_charge_voltage ∧
    s.sleepTick.ms_v_charge_inprogress = s.ms_v_charge_inprogress ∧
    s.sleepTick.ms_v_bat_soc = s.ms_v_bat_soc ∧
    s.sleepTick.chargeFields = s.chargeFields := by
  unfold OvmsVehicleVoltAmpera.sleepTick
  split
  · split <;> exact ⟨rfl, rfl, rfl, rfl, rfl⟩
  · exact ⟨rfl, rfl, rfl, rfl, rfl⟩

/-- The charge state machine on a state `s`, by the charger current and voltage. -/
theorem OvmsVehicleVoltAmpera.chargeTick_cases (s : OvmsVehicleVoltAmpera) :
    (s.ms_v_charge_current ≠ 0 → s.ms_v_charge_voltage ≠ 0 →
      s.ms_v_charge_inprogress = false →
      s.chargeTick.chargeFields
        = (true, true, true, "standard", "charging", "onrequest", 16, s.ms_v_charge_kwh, 0, 0,
            true)) ∧
    (s.ms_v_charge_current = 0 → s.ms_v_charge_voltage = 0 →
      s.ms_v_charge_inprogress = true →
      (s.ms_v_bat_soc < 95 → s.chargeTick.chargeFields
        = (false, false, false, "standard", "stopped", "interrupted", s.ms_v_charge_climit,
            s.ms_v_charge_kwh, 0, 0, false)) ∧
      (95 ≤ s.ms_v_bat_soc → s.chargeTick.chargeFields
        = (false, false, false, "standard", "done", "onrequest", s.ms_v_charge_climit,
            s.ms_v_charge_kwh, 0, 0, false))) ∧
    ((s.ms_v_charge_current = 0 ∧ s.ms_v_charge_voltage ≠ 0) ∨
      (s.ms_v_charge_current ≠ 0 ∧ s.ms_v_charge_voltage = 0) →
      s.chargeTick = s) := by
  refine ⟨?_, ?_, ?_⟩
  · intro hc hv hp
    unfold OvmsVehicleVoltAmpera.chargeTick
    rw [if_pos ⟨hc, hv⟩, if_pos hp]
    rfl
  · intro hc hv hp
    have hn : ¬ (s.ms_v_charge_current ≠ 0 ∧ s.ms_v_charge_voltage ≠ 0) := fun h => h.1 hc
    unfold OvmsVehicleVoltAmpera.chargeTick
    rw [if_neg hn, if_pos ⟨hc, hv⟩, if_pos hp]
    constructor
    · intro hsoc
      unfold OvmsVehicleVoltAmpera.chargeEnded
      rw [if_pos hsoc]
      rfl
    · intro hsoc
      unfold OvmsVehicleVoltAmpera.chargeEnded
      rw [if_neg (not_lt.mpr hsoc)]
      rfl
  · intro h
    have hn : ¬ (s.ms_v_charge_current ≠ 0 ∧ s.ms_v_charge_voltage ≠ 0) := by
      rcases h with h | h
      · exact fun hh => hh.1 h.1
      · exact fun hh => hh.2 h.2
    have hz : ¬ (s.ms_v_charge_current = 0 ∧ s.ms_v_charge_voltage = 0) := by
      rcases h with h | h
      · exact fun hh => h.2 hh.2
      · exact fun hh => h.1 hh.1
    unfold OvmsVehicleVoltAmpera.chargeTick
    rw [if_neg hn, if_neg hz]

/-- C17: the Volt/Ampera charge state machine in `Ticker1`. With charger current and voltage
both non-zero and no charge in progress, a charge is started: pilot, in progress and charge
port true, state `charging`, substate `onrequest`, timer and watt-minute accumulator 0. With
both zero and a charge in progress, the charge is ended: pilot, in progress and charge port
false, timer and accumulator 0, state/substate `stopped`/`interrupted` when SOC < 95 and
`done`/`onrequest` when SOC >= 95. With exactly one of the two zero no charge field changes. -/
theorem voltampera_charge_state_machine (ticker : Nat) (self : OvmsVehicleVoltAmpera) :
    (self.ms_v_charge_current ≠ 0 → self.ms_v_charge_voltage ≠ 0 →
      self.ms_v_charge_inprogress = false →
      (self.Ticker1 ticker).chargeFields
        = (true, true, true, "standard", "charging", "onrequest", 16, self.ms_v_charge_kwh,
            0, 0, true)) ∧
    (self.ms_v_charge_current = 0 → self.ms_v_charge_voltage = 0 →
      self.ms_v_charge_inprogress = true →
      (self.ms_v_bat_soc < 95 → (self.Ticker1 ticker).chargeFields
        = (false, false, false, "standard", "stopped", "interrupted",
            self.ms_v_charge_climit, self.ms_v_charge_kwh, 0, 0, false)) ∧
      (95 ≤ self.ms_v_bat_soc → (self.Ticker1 ticker).chargeFields
        = (false, false, false, "standard", "done", "onrequest", self.ms_v_charge_climit,
            self.ms_v_charge_kwh, 0, 0, false))) ∧
    ((self.ms_v_charge_current = 0 ∧ self.ms_v_charge_voltage ≠ 0) ∨
      (self.ms_v_charge_current ≠ 0 ∧ self.ms_v_charge_voltage = 0) →
      (self.Ticker1 ticker).chargeFields = self.chargeFields) := by
  obtain ⟨kc, kv, kp, ks, kf⟩ := OvmsVehicleVoltAmpera.sleepTick_keeps self
  obtain ⟨c1, c2, c3⟩ := OvmsVehicleVoltAmpera.chargeTick_cases self.sleepTick
  rw [kc, kv, kp] at c1 c2
  rw [kc, kv] at c3
  rw [ks] at c2
  have hkwh : self.sleepTick.ms_v_charge_kwh = self.ms_v_charge_kwh := by
    have := congrArg (fun t => t.2.2.2.2.2.2.2.1) kf
    simpa [OvmsVehicleVoltAmpera.chargeFields] using this
  have hclimit : self.sleepTick.ms_v_charge_climit = self.ms_v_charge_climit := by
    have := congrArg (fun t => t.2.2.2.2.2.2.1) kf
    simpa [OvmsVehicleVoltAmpera.chargeFields] using this
  rw [hkwh] at c1 c2
  rw [hclimit] at c2
  refine ⟨c1, c2, ?_⟩
  intro h
  unfold OvmsVehicleVoltAmpera.Ticker1
  rw [c3 h, kf]

/-- Instance of C17: 16 A at 230 V with no charge in progress starts a charge; the next second
without current and voltage at SOC 80 ends it as interrupted; voltage without current leaves
the charge fields alone. -/
theorem voltampera_charge_state_machine_witness :
    ((OvmsVehicleVoltAmpera.sample 16 230 false 50).Ticker1 0).chargeFields
      = (true, true, true, "standard", "charging", "onrequest", 16, 0, 0, 0, true) ∧
    ((OvmsVehicleVoltAmpera.sample 0 0 true 80).Ticker1 0).chargeFields
      = (false, false, false, "standard", "stopped", "interrupted", 0, 0, 0, 0, false) ∧
    ((OvmsVehicleVoltAmpera.sample 0 230 false 50).Ticker1 0).chargeFields
      = (OvmsVehicleVoltAmpera.sample 0 230 false 50).chargeFields :=
  ⟨(voltampera_charge_state_machine 0 (OvmsVehicleVoltAmpera.sample 16 230 false 50)).1
      (by decide) (by decide) rfl,
    ((voltampera_charge_state_machine 0 (OvmsVehicleVoltAmpera.sample 0 0 true 80)).2.1
      rfl rfl rfl).1 (by decide),
    (voltampera_charge_state_machine 0 (OvmsVehicleVoltAmpera.sample 0 230 false 50)).2.2
      (Or.inl ⟨rfl, by decide⟩)⟩

/-- The charge state machine leaves the activity timer and what the module reports about the
car and the bus as they are. -/
theorem OvmsVehicleVoltAmpera.chargeTick_keeps (s : OvmsVehicleVoltAmpera) :
    s.chargeTick.m_candata_timer = s.m_candata_timer ∧ s.chargeTick.busFields = s.busFields := by
  unfold OvmsVehicleVoltAmpera.chargeTick
  split
  · split
    · exact ⟨rfl, rfl⟩
    · unfold OvmsVehicleVoltAmpera.chargeOngoing
      split
      · split <;> exact ⟨rfl, rfl⟩
      · exact ⟨rfl, rfl⟩
  · split
    · split
      · unfold OvmsVehicleVoltAmpera.chargeEnded
        split <;> exact ⟨rfl, rfl⟩
      · exact ⟨rfl, rfl⟩
    · exact ⟨rfl, rfl⟩

/-- One `Ticker1` call with the activity timer at 2 or more: the timer goes down by 1 and the
car is reported awake; the poll state stays. -/
theorem OvmsVehicleVoltAmpera.Ticker1_awake (s : OvmsVehicleVoltAmpera) (n : Nat)
    (ht : 2 ≤ s.m_candata_timer) :
    (s.Ticker1 n).m_candata_timer = s.m_candata_timer - 1 ∧
    (s.Ticker1 n).busFields = (s.m_poll_state, true, true, false) := by
  obtain ⟨k1, k2⟩ := OvmsVehicleVoltAmpera.chargeTick_keeps s.sleepTick
  have h1 : s.m_candata_timer > 0 := by omega
  have h2 : ¬ s.m_candata_timer - 1 = 0 := by omega
  unfold OvmsVehicleVoltAmpera.Ticker1
  rw [k1, k2]
  unfold OvmsVehicleVoltAmpera.sleepTick
  rw [if_pos h1, if_neg h2]
  exact ⟨rfl, rfl⟩

/-- The `Ticker1` call with the activity timer at 1: the timer reaches 0, polling stops and the
car is reported off, not awake, handbrake on. -/
theorem OvmsVehicleVoltAmpera.Ticker1_sleep (s : OvmsVehicleVoltAmpera) (n : Nat)
    (ht : s.m_candata_timer = 1) :
    (s.Ticker1 n).m_candata_timer = 0 ∧
    (s.Ticker1 n).busFields = (0, false, false, true) := by
  obtain ⟨k1, k2⟩ := OvmsVehicleVoltAmpera.chargeTick_keeps s.sleepTick
  have h1 : s.m_candata_timer > 0 := by omega
  have h2 : s.m_candata_timer - 1 = 0 := by omega
  unfold OvmsVehicleVoltAmpera.Ticker1
  rw [k1, k2]
  unfold OvmsVehicleVoltAmpera.sleepTick
  rw [if_pos h1, if_pos h2]
  exact ⟨by simp [OvmsVehicleVoltAmpera.PollSetState, h2], rfl⟩

/-- A `Ticker1` call with the activity timer at 0 changes neither the timer nor what the
module reports about the car and the bus. -/
theorem OvmsVehicleVoltAmpera.Ticker1_idle (s : OvmsVehicleVoltAmpera) (n : Nat)
    (ht : s.m_candata_timer = 0) :
    (s.Ticker1 n).m_candata_timer = 0 ∧ (s.Ticker1 n).busFields = s.busFields := by
  obtain ⟨k1, k2⟩ := OvmsVehicleVoltAmpera.chargeTick_keeps s.sleepTick
  have h1 : ¬ s.m_candata_timer > 0 := by omega
  unfold OvmsVehicleVoltAmpera.Ticker1
  rw [k1, k2]
  unfold OvmsVehicleVoltAmpera.sleepTick
  rw [if_neg h1]
  exact ⟨ht, rfl⟩

theorem OvmsVehicleVoltAmpera.ticks_add (a : Nat) :
    ∀ (b : Nat) (s : OvmsVehicleVoltAmpera), s.ticks (a + b) = (s.ticks a).ticks b := by
  induction a with
  | zero => intro b s; simp [OvmsVehicleVoltAmpera.ticks]
  | succ a ih =>
    intro b s
    rw [Nat.add_right_comm]
    simp only [OvmsVehicleVoltAmpera.ticks]
    exact ih b _

/-- While the activity timer has not run down, every `Ticker1` call lowers it by 1, reports
the car awake and keeps the poll state. -/
theorem OvmsVehicleVoltAmpera.ticks_awake (k : Nat) :
    ∀ (s : OvmsVehicleVoltAmpera) (t : Nat), s.m_candata_timer = (t : Int) → k < t →
      s.busFields = (s.m_poll_state, true, true, false) →
      (s.ticks k).m_candata_timer = ((t - k : Nat) : Int) ∧
      (s.ticks k).busFields = (s.m_poll_state, true, true, false) := by
  induction k with
  | zero => intro s t ht _ hb; exact ⟨by simpa using ht, hb⟩
  | succ k ih =>
    intro s t ht hk hb
    obtain ⟨a1, a2⟩ := OvmsVehicleVoltAmpera.Ticker1_awake s 0 (by omega)
    have hp : (s.Ticker1 0).m_poll_state = s.m_poll_state := by
      have := congrArg Prod.fst a2
      simpa [OvmsVehicleVoltAmpera.busFields] using this
    have ht1 : (s.Ticker1 0).m_candata_timer = ((t - 1 : Nat) : Int) := by
      rw [a1, ht]
      omega
    obtain ⟨b1, b2⟩ := ih (s.Ticker1 0) (t - 1) ht1 (by omega) (by rw [a2, hp])
    simp only [OvmsVehicleVoltAmpera.ticks]
    refine ⟨by rw [b1]; congr 1; omega, by rw [b2, hp]⟩

/-- Once the activity timer is 0, `Ticker1` calls change neither the timer nor what the module
reports about the car and the bus. -/
theorem OvmsVehicleVoltAmpera.ticks_idle (j : Nat) :
    ∀ s : OvmsVehicleVoltAmpera, s.m_candata_timer = 0 →
      (s.ticks j).m_candata_timer = 0 ∧ (s.ticks j).busFields = s.busFields := by
  induction j with
  | zero => intro s ht; exact ⟨ht, rfl⟩
  | succ j ih =>
    intro s ht
    obtain ⟨a1, a2⟩ := OvmsVehicleVoltAmpera.Ticker1_idle s 0 ht
    obtain ⟨b1, b2⟩ := ih (s.Ticker1 0) a1
    simp only [OvmsVehicleVoltAmpera.ticks]
    exact ⟨b1, by rw [b2, a2]⟩

/-- A frame that is not a poll response leaves the poll state at 1 and the activity timer
at 60. -/
theorem OvmsVehicleVoltAmpera.IncomingFrameCan1_activity (f : CAN_frame_t)
    (self : OvmsVehicleVoltAmpera)
    (hid : ¬ (f.MsgID = 0x7e8 ∨ f.MsgID = 0x7ec ∨ f.MsgID = 0x7e9)) :
    (self.IncomingFrameCan1 f).m_poll_state = 1 ∧
    (self.IncomingFrameCan1 f).m_candata_timer = 60 := by
  have hp : self.resumePolling.m_poll_state = 1 := by
    unfold OvmsVehicleVoltAmpera.resumePolling
    split
    · rfl
    · rename_i h
      exact not_not.mp h
  unfold OvmsVehicleVoltAmpera.IncomingFrameCan1
  rw [if_neg hid]
  dsimp only
  split
  · exact ⟨hp, rfl⟩
  split
  · unfold OvmsVehicleVoltAmpera.frame514
    dsimp only
    split <;> exact ⟨hp, rfl⟩
  split
  · unfold OvmsVehicleVoltAmpera.frame135
    split <;> exact ⟨hp, rfl⟩
  · exact ⟨hp, rfl⟩

/-- After a frame that is not a poll response, the first 59 `Ticker1` calls leave the activity
timer at `60 - k` and report the car awake with the poll state at 1. -/
theorem OvmsVehicleVoltAmpera.ticks_after_frame (f : CAN_frame_t)
    (self : OvmsVehicleVoltAmpera)
    (hid : ¬ (f.MsgID = 0x7e8 ∨ f.MsgID = 0x7ec ∨ f.MsgID = 0x7e9)) (k : Nat) (h1 : 1 ≤ k)
    (h59 : k ≤ 59) :
    ((self.IncomingFrameCan1 f).ticks k).m_candata_timer = ((60 - k : Nat) : Int) ∧
    ((self.IncomingFrameCan1 f).ticks k).busFields = (1, true, true, false) := by
  obtain ⟨hp, ht⟩ := OvmsVehicleVoltAmpera.IncomingFrameCan1_activity f self hid
  obtain ⟨a1, a2⟩ := OvmsVehicleVoltAmpera.Ticker1_awake (self.IncomingFrameCan1 f) 0
    (by rw [ht]; norm_num)
  rw [hp] at a2
  have hp1 : ((self.IncomingFrameCan1 f).Ticker1 0).m_poll_state = 1 := by
    have := congrArg Prod.fst a2
    simpa [OvmsVehicleVoltAmpera.busFields] using this
  have ht1 : ((self.IncomingFrameCan1 f).Ticker1 0).m_candata_timer = ((59 : Nat) : Int) := by
    rw [a1, ht]
    norm_num
  obtain ⟨b1, b2⟩ := OvmsVehicleVoltAmpera.ticks_awake (k - 1)
    ((self.IncomingFrameCan1 f).Ticker1 0) 59 ht1 (by omega) (by rw [a2, hp1])
  obtain ⟨k0, rfl⟩ : ∃ k0, k = k0 + 1 := ⟨k - 1, by omega⟩
  simp only [OvmsVehicleVoltAmpera.ticks]
  simp only [Nat.add_sub_cancel] at b1 b2
  refine ⟨by rw [b1]; congr 1; omega, by rw [b2, hp1]⟩

/-- C18: the Volt/Ampera CAN-bus timeout. After any frame that is not a poll response the poll
state is 1 and the activity timer is 60. If no further such frame arrives, each of the next 59
`Ticker1` calls reports the car awake (on, awake, handbrake off) with the poll state still 1;
the 60th `Ticker1` call, and no earlier one, sets the poll state to 0 and reports the car off,
not awake, handbrake on, with the timer at 0; and later `Ticker1` calls change none of
these. -/
theorem voltampera_bus_timeout (f : CAN_frame_t) (self : OvmsVehicleVoltAmpera)
    (hid : ¬ (f.MsgID = 0x7e8 ∨ f.MsgID = 0x7ec ∨ f.MsgID = 0x7e9)) :
    (self.IncomingFrameCan1 f).m_poll_state = 1 ∧
    (self.IncomingFrameCan1 f).m_candata_timer = 60 ∧
    (∀ k, 1 ≤ k → k ≤ 59 →
      ((self.IncomingFrameCan1 f).ticks k).busFields = (1, true, true, false)) ∧
    (∀ j, ((self.IncomingFrameCan1 f).ticks (60 + j)).busFields = (0, false, false, true) ∧
      ((self.IncomingFrameCan1 f).ticks (60 + j)).m_candata_timer = 0) := by
  obtain ⟨hp, ht⟩ := OvmsVehicleVoltAmpera.IncomingFrameCan1_activity f self hid
  refine ⟨hp, ht, fun k h1 h59 =>
    (OvmsVehicleVoltAmpera.ticks_after_frame f self hid k h1 h59).2, ?_⟩
  intro j
  obtain ⟨t59, _⟩ := OvmsVehicleVoltAmpera.ticks_after_frame f self hid 59 (by norm_num)
    (by norm_num)
  have h60 : (self.IncomingFrameCan1 f).ticks (60 + j)
      = ((((self.IncomingFrameCan1 f).ticks 59).Ticker1 0)).ticks j := by
    rw [show 60 + j = 59 + (1 + j) by omega, OvmsVehicleVoltAmpera.ticks_add,
      show 1 + j = j + 1 by omega]
    rfl
  obtain ⟨s1, s2⟩ := OvmsVehicleVoltAmpera.Ticker1_sleep
    ((self.IncomingFrameCan1 f).ticks 59) 0 (by rw [t59]; norm_num)
  obtain ⟨i1, i2⟩ := OvmsVehicleVoltAmpera.ticks_idle j _ s1
  rw [h60]
  exact ⟨by rw [i2, s2], i1⟩

/-- Instance of C18: a `0x135` frame (not park) on a fresh module; the car is awake after 59
ticks and asleep, with polling stopped, after 60 and after 75. -/
theorem voltampera_bus_timeout_witness :
    ((OvmsVehicleVoltAmpera.fresh.IncomingFrameCan1
      (CAN_frame_t.mk 0x135 [1, 0, 0, 0, 0, 0, 0, 0])).ticks 59).busFields
      = (1, true, true, false) ∧
    ((OvmsVehicleVoltAmpera.fresh.IncomingFrameCan1
      (CAN_frame_t.mk 0x135 [1, 0, 0, 0, 0, 0, 0, 0])).ticks (60 + 0)).busFields
      = (0, false, false, true) ∧
    ((OvmsVehicleVoltAmpera.fresh.IncomingFrameCan1
      (CAN_frame_t.mk 0x135 [1, 0, 0, 0, 0, 0, 0, 0])).ticks (60 + 15)).busFields
      = (0, false, false, true) :=
  have h := voltampera_bus_timeout (CAN_frame_t.mk 0x135 [1, 0, 0, 0, 0, 0, 0, 0])
    OvmsVehicleVoltAmpera.fresh (by decide)
  ⟨h.2.2.1 59 (by decide) (by decide), (h.2.2.2 0).1, (h.2.2.2 15).1⟩

/-- C19: Volt/Ampera ignores poll responses: for every frame with ID 0x7E8, 0x7EC or 0x7E9,
`IncomingFrameCan1` changes nothing: poll state, activity timer, VIN buffer and all metrics
are as before. -/
theorem voltampera_ignores_poll_responses (f : CAN_frame_t) (self : OvmsVehicleVoltAmpera)
    (hid : f.MsgID = 0x7E8 ∨ f.MsgID = 0x7EC ∨ f.MsgID = 0x7E9) :
    self.IncomingFrameCan1 f = self := by
  unfold OvmsVehicleVoltAmpera.IncomingFrameCan1
  rw [if_pos hid]

/-- Instance of C19: a `0x7EC` poll response on a module that is asleep leaves it asleep, the
timer at 0, while a `0x135` frame wakes it. -/
theorem voltampera_ignores_poll_responses_witness :
    OvmsVehicleVoltAmpera.fresh.IncomingFrameCan1
      (CAN_frame_t.mk 0x7EC [0x04, 0x62, 0x43, 0x69, 0x50, 0, 0, 0])
      = OvmsVehicleVoltAmpera.fresh ∧
    (OvmsVehicleVoltAmpera.fresh.IncomingFrameCan1
      (CAN_frame_t.mk 0x135 [0, 0, 0, 0, 0, 0, 0, 0])).m_candata_timer = 60 :=
  ⟨voltampera_ignores_poll_responses
    (CAN_frame_t.mk 0x7EC [0x04, 0x62, 0x43, 0x69, 0x50, 0, 0, 0])
    OvmsVehicleVoltAmpera.fresh (by decide), by decide⟩

end OVMS
